import Mathlib

/-!
# cvmanager: rollout orchestrator and in-place patch deployer

A shallow embedding of `sync/sync.go`, `deploy/simple.go` and the `version`
helper of `gok8s/workload/provider.go`.

* Go closures of type `state.StateFunc` are represented as data (`State`): one
  constructor per closure-building method, holding the captured variables.
  What a closure does when the engine invokes it is given by a separate
  function over an explicit environment of collaborator outcomes.
* Collaborator calls (cluster API, registry, health probe) are inputs of the
  run (`DeployEnv`, `SyncEnv`, `ConfigClient`); the calls a run issues are
  returned as a trace (`Call`, `Write`).
* The engine's evaluation of one branch (`runBranch`) follows the spec: it
  invokes a state and goes on with the single successor it returns.
* A Go `(state.States, error)` pair is a `Result`; a runtime panic (index out
  of range, write to a nil map) is the third alternative `Result.panic`.
* Wall-clock instants and durations are integer nanoseconds; `time.Time`
  arithmetic does not overflow for instants of the current era plus a
  `time.Duration`.
-/

namespace Cvmanager

/-! ## Errors -/

/-- Status reason of an API error, the part that `k8serr.IsNotFound` and
`errors.IsConflict` inspect. -/
inductive Reason
  | conflict
  | notFound
  | other
deriving DecidableEq, Repr

/-- Go `error` values: an error returned by a collaborator, an error built with
`errors.Errorf` (format string and the values printed into it), or an error
wrapped with `errors.Wrap` / `errors.Wrapf`. -/
inductive Err
  | api (reason : Reason) (msg : String)
  | errorf (format : String) (args : List String)
  | wrap (cause : Err) (msg : String)
deriving DecidableEq, Repr

/-- Whether `errors.IsConflict` holds of the error (an optimistic-concurrency conflict). -/
def IsConflict : Err → Bool
  | .api .conflict _ => true
  | _ => false

/-- Whether `k8serr.IsNotFound` holds of the error. -/
def IsNotFound : Err → Bool
  | .api .notFound _ => true
  | _ => false

/-! ## Data model -/

/-- One second, in nanoseconds (`time.Second`). -/
def Second : Int := 1000000000

/-- The fields of `v1.Container` that the code reads. -/
structure Container where
  name : String
  image : String
deriving DecidableEq, Repr

/-- The fields of `v1.PodSpec` that the code reads. -/
structure PodSpec where
  containers : List Container
deriving DecidableEq, Repr

/-- The container part of a ContainerVersion spec (`cv.Spec.Container`). -/
structure ContainerSpec where
  name : String
deriving DecidableEq, Repr

/-- The optional config-map reference of a ContainerVersion spec (`cv.Spec.Config`). -/
structure ConfigSpec where
  name : String
  key : String
deriving DecidableEq, Repr

/-- The history toggle of a ContainerVersion spec (`cv.Spec.History`). -/
structure HistorySpec where
  enabled : Bool
  name : String
deriving DecidableEq, Repr

/-- The fields of `cv.Spec` that the code reads. -/
structure CVSpec where
  imageRepo : String
  tag : String
  container : ContainerSpec
  config : Option ConfigSpec
  history : HistorySpec
deriving DecidableEq, Repr

/-- The fields of `cv.Status` that the code reads. -/
structure CVStatus where
  currVersion : String
  currStatus : String
deriving DecidableEq, Repr

/-- The ContainerVersion resource (`cv1.ContainerVersion`). -/
structure ContainerVersion where
  name : String
  spec : CVSpec
  status : CVStatus
deriving DecidableEq, Repr

/-- Modelled from the spec: the rollout status constant `k8s.StatusProgressing`
(declared outside the given sources); the statuses are None, Progressing,
Success and Failed. -/
def StatusProgressing : String := "Progressing"

/-- Modelled from the spec: the rollout status constant `k8s.StatusSuccess`. -/
def StatusSuccess : String := "Success"

/-- Modelled from the spec: the rollout status constant `k8s.StatusFailed`. -/
def StatusFailed : String := "Failed"

/-- A workload as the code sees it through the `k8s.Workload` /
`deploy.RolloutTarget` interfaces: the values of `Name()`, `Type()`, `PodSpec()`
and `RollbackAfter()` (`none` is the nil pointer). The effectful methods
`PatchPodSpec` and `ProgressHealth` are in `DeployEnv`. -/
structure Workload where
  name : String
  typ : String
  podSpec : PodSpec
  rollbackAfter : Option Int
deriving DecidableEq, Repr

/-! ## States -/

/-- Values of `state.State` that this code builds. Each constructor is one
closure-building method with its captured variables; `nil` is the Go nil
state passed as the last `next`. -/
inductive State
  | nil
  | verify (version : String) (next : State)
  | newVerifiers (version : String) (next : State)
  | updateRolloutStatus (version status : String) (next : State)
  | deploy (version : String) (target : Workload) (next : State)
  | newDeployState (cv : ContainerVersion) (version : String) (target : Workload) (next : State)
  | simpleDeployer (cv : ContainerVersion) (version : String) (target : Workload)
      (checkRollback : Bool) (next : State)
  | checkRollbackState (cv : ContainerVersion) (version : String) (target : Workload)
      (checkRollback : Bool) (sdNext : State) (container : Container) (next : State)
  | successfulDeploymentStats (workload : Workload) (next : State)
  | syncVersionConfig (version : String) (next : State)
  | addHistory (version : String) (target : Workload) (next : State)
  | withFailure (st : State) (workload : Workload) (version : String)
deriving DecidableEq, Repr

/-- Modelled from the spec: the successors a state function hands back to the
engine (package `state` is outside the given sources). `none` is
`state.None()`, `single` is `state.Single`, `many` is `state.Many` (fan-out
into independent branches) and `after` is `state.After` (a Delayed successor
with its minimum wait). -/
inductive States
  | none
  | single (s : State)
  | many (ss : List State)
  | after (wait : Int) (s : State)
deriving DecidableEq, Repr

/-- Modelled from the spec: the branches the engine schedules for a result. -/
def States.branches : States → List State
  | .none => []
  | .single s => [s]
  | .many ss => ss
  | .after _ s => [s]

/-- What one invocation of a state function produces: successors
(`err == nil`), an error (`state.Error(err)`), or a runtime panic. -/
inductive Result
  | ok (s : States)
  | error (e : Err)
  | panic (msg : String)
deriving DecidableEq, Repr

/-! ## Version extraction -/

/-- Splits a character list after the first occurrence of `sep`: the text up to
and including the separator, and the rest; `none` when `sep` does not occur. -/
def splitAfterFirst (sep : Char) : List Char → Option (List Char × List Char)
  | [] => none
  | c :: cs =>
    if c = sep then some ([c], cs)
    else
      match splitAfterFirst sep cs with
      | none => none
      | some (p, r) => some (c :: p, r)

/-- Go's `strings.SplitAfterN(s, sep, 2)` for a one-character separator: at
most two substrings, split after the first separator. (`:` is a single byte in
UTF-8, so splitting characters and splitting bytes agree.) -/
def SplitAfterN (s : String) (sep : Char) : List String :=
  match splitAfterFirst sep s.data with
  | none => [s]
  | some (p, r) => [String.mk p, String.mk r]

/-- The expression `strings.SplitAfterN(img, ":", 2)[1]` of `version(img)`
(provider.go) and of `checkRollbackState` (simple.go); `none` is the
index-out-of-range panic. -/
def version (img : String) : Option String :=
  (SplitAfterN img ':')[1]?

/-! ## Optimistic-concurrency retry -/

/-- The attempts of `retry.RetryOnConflict`: `fn` is run on the mutable
variables `s` it closes over. -/
def retryLoop {σ : Type} (fn : σ → Option Err × σ) : Nat → Option Err → σ → Option Err × σ
  | 0, lastConflictErr, s => (lastConflictErr, s)
  | n + 1, _, s =>
    match fn s with
    | (none, s1) => (none, s1)
    | (some e, s1) => if IsConflict e then retryLoop fn n (some e) s1 else (some e, s1)

/-- Modelled from the spec: `retry.RetryOnConflict` of the Kubernetes client
library (outside the given sources): attempt the mutation; on a conflict retry,
up to a bounded count of attempts; any other error is returned at once;
exhausting the attempts surfaces the last conflict. -/
def RetryOnConflict {σ : Type} (steps : Nat) (fn : σ → Option Err × σ) (s : σ) : Option Err × σ :=
  retryLoop fn steps none s

/-- Modelled from the spec: the bounded default count of `retry.DefaultRetry`
(five attempts in the client library). -/
def DefaultRetrySteps : Nat := 5

/-! ## SimpleDeployer (deploy/simple.go) -/

/-- The struct `SimpleDeployer`. -/
structure SimpleDeployer where
  cv : ContainerVersion
  version : String
  target : Workload
  checkRollback : Bool
  next : State
deriving DecidableEq, Repr

/-- Collaborator calls a deployer state issues on its target. -/
inductive Call
  | patchPodSpec (container : Container) (version : String)
  | progressHealth
deriving DecidableEq, Repr

/-- Outcomes of the collaborator calls during one invocation of a deployer
state: `patch i` is the error returned by the `i`-th call of
`target.PatchPodSpec` (counting from 0, `none` is a nil error),
`progressHealth` is what `target.ProgressHealth()` returns, `now` is
`time.Now().UTC()` and `startTime` is `state.StartTime(ctx)`. -/
structure DeployEnv where
  patch : Nat → Option Err
  progressHealth : Bool
  now : Int
  startTime : Int

/-- The state as which a `SimpleDeployer` is handed to the engine. -/
def SimpleDeployer.toState (sd : SimpleDeployer) : State :=
  .simpleDeployer sd.cv sd.version sd.target sd.checkRollback sd.next

/-- The closure returned by `sd.checkRollbackState(container, next)`, as data. -/
def SimpleDeployer.checkRollbackState (sd : SimpleDeployer) (container : Container)
    (next : State) : State :=
  .checkRollbackState sd.cv sd.version sd.target sd.checkRollback sd.next container next

/-- Variables of `Do` that the retried closure reads and writes: the calls
issued so far and the container read through the pointer `container`
(`none` is nil). -/
structure DoVars where
  calls : List Call
  container : Option Container
deriving DecidableEq, Repr

/-- The range loop of `Do` (simple.go lines 51-61) over the remaining
containers. Every iteration has its own variable `c` (the loop-variable rule
of Go 1.22; the sources fix no earlier language version), so after
`container = &c` the pointer designates the container that matched, and a
later match replaces it. Returns the closure's error and the variables at
exit. -/
def patchLoop (sd : SimpleDeployer) (patch : Nat → Option Err) :
    List Container → DoVars → Option Err × DoVars
  | [], vs => (none, vs)
  | c :: rest, vs =>
    if c.name = sd.cv.spec.container.name then
      match patch vs.calls.length with
      | some updateErr =>
        (some updateErr, ⟨vs.calls ++ [Call.patchPodSpec c sd.version], vs.container⟩)
      | none => patchLoop sd patch rest ⟨vs.calls ++ [Call.patchPodSpec c sd.version], some c⟩
    else patchLoop sd patch rest vs

/-- One run of the closure passed to `retry.RetryOnConflict` in `Do`: the
range loop over the containers of the pod spec read before the retry. -/
def doAttempt (sd : SimpleDeployer) (patch : Nat → Option Err) (v : DoVars) :
    Option Err × DoVars :=
  patchLoop sd patch sd.target.podSpec.containers v

/-- The error of `Do` when no container carries the configured name. The first
value printed is `sd.cv.Spec.Container`, given here by its name. -/
def containerNotFound (sd : SimpleDeployer) : Err :=
  .errorf "container with name %s not found in PodSpec for target %s"
    [sd.cv.spec.container.name, sd.target.name]

/-- `SimpleDeployer.Do` (simple.go lines 44-77): the result and the calls issued. -/
def SimpleDeployer.Do (sd : SimpleDeployer) (env : DeployEnv) : Result × List Call :=
  match RetryOnConflict DefaultRetrySteps (doAttempt sd env.patch) ⟨[], none⟩ with
  | (some err, v) => (.error err, v.calls)
  | (none, v) =>
    match v.container with
    | none => (.error (containerNotFound sd), v.calls)
    | some container =>
      if sd.checkRollback then
        (.ok (.single (sd.checkRollbackState container sd.next)), v.calls)
      else (.ok (.single sd.next), v.calls)

/-- One run of the closure passed to `retry.RetryOnConflict` in
`checkRollbackState`; the variable threaded through is the list of
PatchPodSpec calls issued so far. -/
def rollbackAttempt (container : Container) (prevVersion : String) (patch : Nat → Option Err)
    (calls : List Call) : Option Err × List Call :=
  (patch calls.length, calls ++ [Call.patchPodSpec container prevVersion])

/-- The state function returned by `sd.checkRollbackState(container, next)`
(simple.go lines 79-110): the result and the calls issued, in order. -/
def runCheckRollbackState (sd : SimpleDeployer) (container : Container) (next : State)
    (env : DeployEnv) : Result × List Call :=
  match sd.target.rollbackAfter with
  | none => (.ok (.single next), [])
  | some rollbackAfter =>
    match version container.image with
    | none => (.panic "index out of range [1] with length 1", [])
    | some prevVersion =>
      if env.now < env.startTime + rollbackAfter then
        (.ok (.after (15 * Second) (sd.checkRollbackState container next)), [])
      else if env.progressHealth then
        (.ok (.single next), [Call.progressHealth])
      else
        match RetryOnConflict DefaultRetrySteps (rollbackAttempt container prevVersion env.patch) [] with
        | (some err, calls) => (.error err, Call.progressHealth :: calls)
        | (none, calls) => (.ok (.single next), Call.progressHealth :: calls)

/-! ## Syncer (sync/sync.go) -/

/-- The mutable part of the struct `Syncer`: the cached resource `s.cv`. -/
structure Syncer where
  cv : ContainerVersion
deriving DecidableEq, Repr

/-- An event sent to the recorder: type, reason and message. -/
structure RecorderEvent where
  typ : String
  reason : String
  message : String
deriving DecidableEq, Repr

/-- Outcomes of the collaborator calls of one cycle: `cv` is
`s.k8sProvider.CV(name)`, `registryVersion` is `s.registry.Version(ctx, tag)`,
`workloads` is `s.k8sProvider.Workloads(cv)` and `checkPodSpecContainerVersions`
is `k8s.CheckPodSpecContainerVersions(cv, version, podSpec)`, a function of the
repository declared outside the given sources. -/
structure SyncEnv where
  cv : String → Except Err ContainerVersion
  registryVersion : String → Except Err String
  workloads : ContainerVersion → Except Err (List Workload)
  checkPodSpecContainerVersions : ContainerVersion → String → PodSpec → Except Err Bool

/-- The loop that computes `toUpdate` (sync.go lines 113-129); the second
argument is the slice built so far. An error of a version check ends the
cycle with that error, wrapped. -/
def diffLoop (cv : ContainerVersion) (version : String)
    (check : ContainerVersion → String → PodSpec → Except Err Bool) :
    List Workload → List Workload → Except Err (List Workload)
  | [], toUpdate => .ok toUpdate
  | wl :: rest, toUpdate =>
    if version = cv.status.currVersion ∧ cv.status.currStatus = StatusProgressing then
      diffLoop cv version check rest (toUpdate ++ [wl])
    else
      match check cv version wl.podSpec with
      | .error err =>
        .error (.wrap err ("failed to check podspec versions for cv resource " ++ cv.name))
      | .ok eq =>
        if !eq then diffLoop cv version check rest (toUpdate ++ [wl])
        else diffLoop cv version check rest toUpdate

/-- The diff step: the update set computed from the recorded status, the
resolved version and the live workloads. -/
def diffStep (cv : ContainerVersion) (version : String)
    (check : ContainerVersion → String → PodSpec → Except Err Bool)
    (workloads : List Workload) : Except Err (List Workload) :=
  diffLoop cv version check workloads []

/-- The chain built for one workload (sync.go lines 135-141), innermost
continuation last. -/
def workloadChain (version : String) (wl : Workload) : State :=
  .verify version
    (.updateRolloutStatus version StatusProgressing
      (.deploy version wl
        (.successfulDeploymentStats wl
          (.syncVersionConfig version
            (.addHistory version wl
              (.updateRolloutStatus version StatusSuccess .nil))))))

/-- The loop that builds `states` (sync.go lines 133-144): one chain per
workload to update, wrapped with `state.WithFailure(st, s.handleFailure(wl, version))`. -/
def buildStates (version : String) (toUpdate : List Workload) : List State :=
  toUpdate.map (fun wl => State.withFailure (workloadChain version wl) wl version)

/-- What one invocation of a syncer state function produces: the result, the
syncer afterwards (`s.cv` may be reassigned) and the recorder events. -/
structure CycleOut where
  result : Result
  syncer : Syncer
  events : List RecorderEvent
deriving DecidableEq, Repr

/-- The state function returned by `Syncer.initialState` (sync.go lines 84-148). -/
def Syncer.initialState (s : Syncer) (env : SyncEnv) : CycleOut :=
  match env.cv s.cv.name with
  | .error err =>
    ⟨.error (.wrap err ("failed to get ContainerVersion instance with name " ++ s.cv.name)), s, []⟩
  | .ok cv =>
    match env.registryVersion cv.spec.tag with
    | .error err =>
      ⟨.error (.wrap err "failed to get version from registry"), ⟨cv⟩,
        [⟨"Warning", "CRSyncFailed", "Failed to get version from registry"⟩]⟩
    | .ok version =>
      match env.workloads cv with
      | .error err =>
        ⟨.error (.wrap err ("failed to obtain workloads for cv resource " ++ cv.name)), ⟨cv⟩,
          [⟨"Warning", "CRSyncFailed", "Failed to obtain workloads for cv resource"⟩]⟩
      | .ok workloads =>
        if version = cv.status.currVersion ∧ cv.status.currStatus = StatusFailed then
          ⟨.ok .none, ⟨cv⟩, []⟩
        else
          match diffLoop cv version env.checkPodSpecContainerVersions workloads [] with
          | .error err => ⟨.error err, ⟨cv⟩, []⟩
          | .ok toUpdate => ⟨.ok (.many (buildStates version toUpdate)), ⟨cv⟩, []⟩

/-! ## Config-map sync -/

/-- The fields of `corev1.ConfigMap` that the code reads and writes. `data` is
a Go `map[string]string` as an association list searched from the front;
`none` is the nil map, which a config map without data has. -/
structure ConfigMap where
  name : String
  ns : String
  data : Option (List (String × String))
deriving DecidableEq, Repr

/-- The entry of an association list at a key, if any. -/
def mapLookup : List (String × String) → String → Option String
  | [], _ => none
  | (k, v) :: rest, key => if k = key then some v else mapLookup rest key

/-- Go's index expression `m[key]` on a `map[string]string`: the zero value
`""` when the key is absent or the map is nil. -/
def mapIndex (m : Option (List (String × String))) (key : String) : String :=
  match m with
  | none => ""
  | some l => (mapLookup l key).getD ""

/-- Go's assignment `m[key] = value` on a non-nil map. -/
def mapAssign : List (String × String) → String → String → List (String × String)
  | [], key, value => [(key, value)]
  | (k, v) :: rest, key, value =>
    if k = key then (k, value) :: rest else (k, v) :: mapAssign rest key value

/-- The derived config store as seen through
`client.CoreV1().ConfigMaps(namespace)`: the namespace, the config maps
present in it (`ns` is `s.k8sProvider.Namespace()`), and the failures of this invocation's calls (`getFault` is a
failure of `Get` for a reason other than absence; `none` is a nil error). -/
structure ConfigClient where
  ns : String
  store : List ConfigMap
  getFault : Option Err
  createErr : Option Err
  updateErr : Option Err

/-- The call `ConfigMaps(namespace).Get(name, ...)`. -/
def ConfigClient.Get (client : ConfigClient) (name : String) : Except Err ConfigMap :=
  match client.getFault with
  | some err => .error err
  | none =>
    match client.store.find? (fun cm => cm.name = name) with
    | some cm => .ok cm
    | none => .error (.api .notFound ("configmaps " ++ name ++ " not found"))

/-- Writes issued to the derived config store. -/
inductive Write
  | create (cm : ConfigMap)
  | update (cm : ConfigMap)
deriving DecidableEq, Repr

/-- The function `newVersionConfig` (sync.go lines 283-293). -/
def newVersionConfig (ns name key version : String) : ConfigMap :=
  ⟨name, ns, some [(key, version)]⟩

/-- What one invocation of `syncVersionConfig` produces: the result, the writes
issued and the events sent to the context recorder. -/
structure ConfigOut where
  result : Result
  writes : List Write
  events : List RecorderEvent
deriving DecidableEq, Repr

/-- The message suffix `%s/%s:%s` of the config-map errors. -/
def configRef (ns : String) (cfg : ConfigSpec) : String :=
  ns ++ "/" ++ cfg.name ++ ":" ++ cfg.key

/-- The state function returned by `s.syncVersionConfig(version, next)`
(sync.go lines 232-280). -/
def Syncer.runSyncVersionConfig (s : Syncer) (version : String) (next : State)
    (client : ConfigClient) : ConfigOut :=
  match s.cv.spec.config with
  | none => ⟨.ok (.single next), [], []⟩
  | some cfg =>
    match client.Get cfg.name with
    | .error err =>
      if IsNotFound err then
        match client.createErr with
        | some cerr =>
          ⟨.error (.wrap cerr ("failed to create version configmap from " ++
              configRef client.ns cfg)),
            [.create (newVersionConfig client.ns cfg.name cfg.key version)],
            [⟨"Warning", "FailedCreateVersionConfigMap", "Failed to create version configmap"⟩]⟩
        | none =>
          ⟨.ok (.single next),
            [.create (newVersionConfig client.ns cfg.name cfg.key version)], []⟩
      else
        ⟨.error (.wrap err ("failed to get version configmap from " ++
            configRef client.ns cfg)), [], []⟩
    | .ok cm =>
      if version = mapIndex cm.data cfg.key then ⟨.ok (.single next), [], []⟩
      else
        match cm.data with
        | none => ⟨.panic "assignment to entry in nil map", [], []⟩
        | some m =>
          match client.updateErr with
          | some uerr =>
            ⟨.error (.wrap uerr ("failed to update version configmap from " ++
                configRef client.ns cfg)),
              [.update { cm with data := some (mapAssign m cfg.key version) }],
              [⟨"Warning", "FailedUpdateVersionConfigMap", "Failed to update version configmap"⟩]⟩
          | none =>
            ⟨.ok (.single next),
              [.update { cm with data := some (mapAssign m cfg.key version) }], []⟩

/-! ## The states of a workload chain -/

/-- The record handed to the history provider (`history.Record`). -/
structure Record where
  typ : String
  name : String
  version : String
  time : Int
deriving DecidableEq, Repr

/-- Calls a chain state issues on its collaborators: the workload provider's
`UpdateRolloutStatus`, the history provider's `Add`, the stats counter, the
syncer's recorder, the recorder of the context, the derived config store and
the rollout target. -/
inductive Effect
  | updateRolloutStatus (name version status : String) (time : Int)
  | historyAdd (ns name : String) (record : Record)
  | incCount (key : String)
  | recorderEvent (e : RecorderEvent)
  | contextEvent (e : RecorderEvent)
  | write (w : Write)
  | target (c : Call)
deriving DecidableEq, Repr

/-- Outcomes of the collaborator calls of the states of a chain: `now` is
`time.Now().UTC()`, `updateRolloutStatus name version status` is
`s.k8sProvider.UpdateRolloutStatus(name, version, status, now)`,
`historyAdd ns name record` is the error of `s.historyProvider.Add` (`none` is
nil), `client` is the derived config store (its `ns` is
`s.k8sProvider.Namespace()`), `deployEnv` holds the outcomes for the
rollout target. `verifiers` and `deployer` are the outcomes of the two
delegate states built outside the given sources: the error with which the
verification of a version, and the deployment strategy for a version and
target, end (`none` when they succeed). -/
structure ChainEnv where
  now : Int
  updateRolloutStatus : String → String → String → Except Err ContainerVersion
  historyAdd : String → String → Record → Option Err
  client : ConfigClient
  deployEnv : DeployEnv
  verifiers : String → Option Err
  deployer : String → Workload → Option Err

/-- What one invocation of a chain state produces: the result, the syncer
afterwards and the collaborator calls issued, in order. -/
structure StepOut where
  result : Result
  syncer : Syncer
  effects : List Effect
deriving DecidableEq, Repr

/-- The state function returned by `s.verify(version, next)` (sync.go lines
170-181). -/
def Syncer.runVerify (s : Syncer) (version : String) (next : State) : StepOut :=
  if version = s.cv.status.currVersion ∧ s.cv.status.currStatus = StatusProgressing then
    ⟨.ok (.single next), s, []⟩
  else
    ⟨.ok (.single (.newVerifiers version next)), s, []⟩

/-- The state function returned by `s.updateRolloutStatus(version, status, next)`
(sync.go lines 185-204). -/
def Syncer.runUpdateRolloutStatus (s : Syncer) (version status : String) (next : State)
    (env : ChainEnv) : StepOut :=
  if version = s.cv.status.currVersion ∧ status = s.cv.status.currStatus then
    ⟨.ok (.single next), s, []⟩
  else
    match env.updateRolloutStatus s.cv.name version status with
    | .error err =>
      ⟨.error (.wrap err ("failed to update Rollout status for cv=" ++ s.cv.name ++
          ", version=" ++ version ++ ", status=" ++ status)), s,
        [.updateRolloutStatus s.cv.name version status env.now,
         .contextEvent ⟨"Warning", "FailedUpdateRolloutStatus",
           "Failed to update version status"⟩]⟩
    | .ok cv =>
      ⟨.ok (.single next), ⟨cv⟩, [.updateRolloutStatus s.cv.name version status env.now]⟩

/-- The state function returned by `s.deploy(version, target, next)` (sync.go
lines 208-215). -/
def Syncer.runDeploy (s : Syncer) (version : String) (target : Workload) (next : State) :
    StepOut :=
  ⟨.ok (.single (.newDeployState s.cv version target next)), s, []⟩

/-- The state function returned by `s.successfulDeploymentStats(workload, next)`
(sync.go lines 218-226). -/
def Syncer.runSuccessfulDeploymentStats (s : Syncer) (workload : Workload) (next : State) :
    StepOut :=
  ⟨.ok (.single next), s,
    [.incCount ("crsyn." ++ workload.name ++ ".sync.success"),
     .recorderEvent ⟨"Normal", "Success", workload.name ++ " updated completed successfully"⟩]⟩

/-- The state function returned by `s.addHistory(version, target, next)`
(sync.go lines 297-324). -/
def Syncer.runAddHistory (s : Syncer) (version : String) (target : Workload) (next : State)
    (env : ChainEnv) : StepOut :=
  if !s.cv.spec.history.enabled then
    ⟨.ok (.single next), s, []⟩
  else
    let name := if s.cv.spec.history.name = "" then target.name else s.cv.spec.history.name
    let record : Record := ⟨target.typ, target.name, version, env.now⟩
    match env.historyAdd env.client.ns name record with
    | some _ =>
      ⟨.ok (.single next), s,
        [.historyAdd env.client.ns name record,
         .incCount ("crsyn." ++ target.name ++ ".history.save.failure"),
         .recorderEvent ⟨"Warning", "SaveHistoryFailed", "Failed to record update history"⟩]⟩
    | none =>
      ⟨.ok (.single next), s, [.historyAdd env.client.ns name record]⟩

/-- Whether a collaborator call is a call of `historyProvider.Add`. -/
def Effect.isHistoryAdd : Effect → Bool
  | .historyAdd _ _ _ => true
  | _ => false

/-! ## Running one branch -/

/-- The kinds of state a branch invokes; `verifiers` and `deployer` are the
delegate states built by `verify.NewVerifiers` and `deploy.NewDeployState`. -/
inductive Step
  | verify
  | verifiers
  | updateRolloutStatus (status : String)
  | deploy
  | deployer
  | simpleDeployer
  | checkRollbackState
  | successfulDeploymentStats
  | syncVersionConfig
  | addHistory
deriving DecidableEq, Repr

/-- The kind of a state; the nil state and a failure binding are not invoked
themselves and have none. -/
def State.step : State → Option Step
  | .nil => none
  | .withFailure _ _ _ => none
  | .verify _ _ => some .verify
  | .newVerifiers _ _ => some .verifiers
  | .updateRolloutStatus _ status _ => some (.updateRolloutStatus status)
  | .deploy _ _ _ => some .deploy
  | .newDeployState _ _ _ _ => some .deployer
  | .simpleDeployer _ _ _ _ _ => some .simpleDeployer
  | .checkRollbackState _ _ _ _ _ _ _ => some .checkRollbackState
  | .successfulDeploymentStats _ _ => some .successfulDeploymentStats
  | .syncVersionConfig _ _ => some .syncVersionConfig
  | .addHistory _ _ _ => some .addHistory

/-- One invocation of a state by the engine. The states of sync.go and
simple.go run their state functions. Modelled from the spec: the delegate
states of `verify.NewVerifiers` and `deploy.NewDeployState` (outside the given
sources) continue with `next` when the verification, respectively the
deployment strategy, succeeds, and return its error otherwise. -/
def runState (env : ChainEnv) (s : Syncer) : State → StepOut
  | .nil => ⟨.ok .none, s, []⟩
  | .withFailure _ _ _ => ⟨.ok .none, s, []⟩
  | .verify version next => s.runVerify version next
  | .newVerifiers version next =>
    match env.verifiers version with
    | none => ⟨.ok (.single next), s, []⟩
    | some err => ⟨.error err, s, []⟩
  | .updateRolloutStatus version status next => s.runUpdateRolloutStatus version status next env
  | .deploy version target next => s.runDeploy version target next
  | .newDeployState _ version target next =>
    match env.deployer version target with
    | none => ⟨.ok (.single next), s, []⟩
    | some err => ⟨.error err, s, []⟩
  | .simpleDeployer cv version target checkRollback next =>
    ⟨(SimpleDeployer.Do ⟨cv, version, target, checkRollback, next⟩ env.deployEnv).1, s,
      (SimpleDeployer.Do ⟨cv, version, target, checkRollback, next⟩ env.deployEnv).2.map
        Effect.target⟩
  | .checkRollbackState cv version target checkRollback sdNext container next =>
    ⟨(runCheckRollbackState ⟨cv, version, target, checkRollback, sdNext⟩ container next
        env.deployEnv).1, s,
      (runCheckRollbackState ⟨cv, version, target, checkRollback, sdNext⟩ container next
        env.deployEnv).2.map Effect.target⟩
  | .successfulDeploymentStats workload next => s.runSuccessfulDeploymentStats workload next
  | .syncVersionConfig version next =>
    ⟨(s.runSyncVersionConfig version next env.client).result, s,
      (s.runSyncVersionConfig version next env.client).writes.map Effect.write ++
        (s.runSyncVersionConfig version next env.client).events.map Effect.contextEvent⟩
  | .addHistory version target next => s.runAddHistory version target next env

/-- How the run of a branch ends: the chain reached its end (`finished`), a
state returned an error (`failed`, upon which the failure callback of the
branch fires) or hit a runtime failure (`panicked`), the branch is
rescheduled after a wait (`delayed`) or fans out (`forked`); `outOfFuel` is
the bound of this function on the number of invocations, not an engine
outcome. -/
inductive Outcome
  | finished
  | failed (e : Err)
  | panicked (msg : String)
  | delayed (wait : Int) (s : State)
  | forked (ss : List State)
  | outOfFuel
deriving DecidableEq, Repr

/-- The run of one branch: how it ends, the states invoked, in order, and the
syncer afterwards. -/
structure BranchRun where
  outcome : Outcome
  trace : List Step
  syncer : Syncer
deriving DecidableEq, Repr

/-- Records the state invoked before a run. -/
def BranchRun.after (r : BranchRun) (st : State) : BranchRun :=
  ⟨r.outcome, st.step.toList ++ r.trace, r.syncer⟩

/-- Modelled from the spec: the engine's evaluation of one branch (package
`state` is outside the given sources). A branch is internally sequential: the
engine invokes a state and, when its function returns exactly one successor,
goes on with that successor; a nil successor or `state.None()` ends the
branch; an error resolves it to Failed and no further successor runs. A
failure binding runs the state it wraps. At most `fuel` states are looked
at. -/
def runBranch (env : ChainEnv) : Nat → Syncer → State → BranchRun
  | 0, s, _ => ⟨.outOfFuel, [], s⟩
  | fuel + 1, s, st =>
    match st with
    | .nil => ⟨.finished, [], s⟩
    | .withFailure inner _ _ => runBranch env fuel s inner
    | st =>
      match (runState env s st).result with
      | .ok (.single next) => (runBranch env fuel (runState env s st).syncer next).after st
      | .ok .none => ⟨.finished, st.step.toList, (runState env s st).syncer⟩
      | .ok (.after wait next) => ⟨.delayed wait next, st.step.toList, (runState env s st).syncer⟩
      | .ok (.many ss) => ⟨.forked ss, st.step.toList, (runState env s st).syncer⟩
      | .error e => ⟨.failed e, st.step.toList, (runState env s st).syncer⟩
      | .panic msg => ⟨.panicked msg, st.step.toList, (runState env s st).syncer⟩

/-- The sequence of states the spec declares for a workload chain: verify,
mark status Progressing, deploy, record success stats, sync version config,
record history, mark status Success. -/
def declaredSequence : List Step :=
  [.verify, .updateRolloutStatus StatusProgressing, .deploy, .successfulDeploymentStats,
   .syncVersionConfig, .addHistory, .updateRolloutStatus StatusSuccess]

/-- Whether a state is one of the steps of sync.go, as opposed to a delegate
state that a step hands over to. -/
def Step.isChainStep : Step → Bool
  | .verifiers => false
  | .deployer => false
  | .simpleDeployer => false
  | .checkRollbackState => false
  | _ => true

/-- The states a workload chain invokes when every step succeeds, starting
from syncer `s`: the declared sequence, with the verifiers after `verify`
unless the rollout of this version is already recorded as Progressing, and
the deployer after `deploy`. -/
def expectedTrace (s : Syncer) (version : String) : List Step :=
  Step.verify ::
    ((if version = s.cv.status.currVersion ∧ s.cv.status.currStatus = StatusProgressing then []
      else [Step.verifiers]) ++
    [.updateRolloutStatus StatusProgressing, .deploy, .deployer, .successfulDeploymentStats,
     .syncVersionConfig, .addHistory, .updateRolloutStatus StatusSuccess])

/-- A run that was not cut short by the fuel bound and follows the expected
states: the states invoked are an initial part of them, and all of them when
the run finished. -/
def BranchRun.Follows (r : BranchRun) (expected : List Step) : Prop :=
  r.outcome ≠ .outOfFuel ∧ r.trace <+: expected ∧ (r.outcome = .finished → r.trace = expected)

/-! ## Sample values -/

/-- A resource of image repository `repo/app` whose container is named `app`,
last recorded as version `v1`, status Success. -/
def sampleCV : ContainerVersion :=
  ⟨"cv", ⟨"repo/app", "latest", ⟨"app"⟩, some ⟨"versions", "app"⟩, ⟨false, ""⟩⟩, ⟨"v1", "Success"⟩⟩

/-- A deployment running `repo/app:v1` next to a sidecar, rollback window 30s. -/
def sampleWorkload : Workload :=
  ⟨"web", "Deployment", ⟨[⟨"app", "repo/app:v1"⟩, ⟨"sidecar", "proxy:s9"⟩]⟩, some (30 * Second)⟩

/-- A live-version comparison standing in for
`k8s.CheckPodSpecContainerVersions` on sample inputs: true when every
container with the configured name has an image whose version is the given
one. -/
def sampleCheck (cv : ContainerVersion) (version : String) (podSpec : PodSpec) :
    Except Err Bool :=
  .ok (podSpec.containers.all
    (fun c => c.name != cv.spec.container.name || Cvmanager.version c.image == some version))

/-- A job already running `repo/app:v2`, without a rollback window. -/
def sampleJob : Workload :=
  ⟨"batch", "Job", ⟨[⟨"app", "repo/app:v2"⟩]⟩, none⟩

/-- A pod with two containers that carry the configured name. -/
def sampleTwins : Workload :=
  ⟨"twins", "Pod", ⟨[⟨"app", "repo/app:v1"⟩, ⟨"app", "repo/app:v0"⟩]⟩, none⟩

/-- A deployment whose container image carries no tag, rollback window 30s. -/
def sampleUntagged : Workload :=
  ⟨"plain", "Deployment", ⟨[⟨"app", "repo/app"⟩]⟩, some (30 * Second)⟩

/-- A deployment running `repo/app:v1` whose rollback window is a zero duration. -/
def sampleZeroWindow : Workload :=
  ⟨"eager", "Deployment", ⟨[⟨"app", "repo/app:v1"⟩]⟩, some 0⟩

/-- Collaborators of a deployer state whose patch calls all fail with the
given error, on an unhealthy target. -/
def sampleFailingEnv (err : Err) (elapsed : Int) : DeployEnv :=
  ⟨fun _ => some err, false, elapsed, 0⟩

/-- A derived config store in namespace `default` holding the given config
maps, all of whose calls succeed. -/
def sampleClient (store : List ConfigMap) : ConfigClient :=
  ⟨"default", store, none, none, none⟩

/-- A pod without containers. -/
def sampleEmpty : Workload :=
  ⟨"empty", "Pod", ⟨[]⟩, none⟩

/-- Collaborators of a deployer state whose patch calls all succeed, with the
given health and the given time since the start of the cycle. -/
def sampleDeployEnv (health : Bool) (elapsed : Int) : DeployEnv :=
  ⟨fun _ => none, health, elapsed, 0⟩

/-- Collaborators of a chain all of whose calls succeed: the status update
returns the sample resource with the new status, and the derived config store
holds the given config maps. -/
def sampleChainEnv (store : List ConfigMap) : ChainEnv :=
  ⟨0, fun _ version status => .ok ⟨"cv", sampleCV.spec, ⟨version, status⟩⟩, fun _ _ _ => none,
    sampleClient store, sampleDeployEnv true 0, fun _ => none, fun _ _ => none⟩

/-- Collaborators of a cycle that return the given resource, version and
workloads. -/
def sampleSyncEnv (cv : ContainerVersion) (version : String) (workloads : List Workload) :
    SyncEnv :=
  ⟨fun _ => .ok cv, fun _ => .ok version, fun _ => .ok workloads, sampleCheck⟩

/-! ## The diff step and the fan-out -/

/-- The spec's diff rule for one workload: (a) the resolved version equals the
recorded version and the recorded status is Progressing, or (b) the live
version check returns false. -/
def inUpdateSet (cv : ContainerVersion) (version : String)
    (check : ContainerVersion → String → PodSpec → Except Err Bool) (wl : Workload) : Bool :=
  decide (version = cv.status.currVersion ∧ cv.status.currStatus = StatusProgressing) ||
    (match check cv version wl.podSpec with
     | .ok false => true
     | _ => false)

/-- Two runs of the diff step on the same recorded status, resolved version
and live workloads: the step writes nothing, so the second run reads what the
first one read. -/
def diffTwice (cv : ContainerVersion) (version : String)
    (check : ContainerVersion → String → PodSpec → Except Err Bool)
    (workloads : List Workload) : Except Err (List Workload) × Except Err (List Workload) :=
  (diffStep cv version check workloads, diffStep cv version check workloads)

/-- When every version check succeeds, the diff loop appends to the slice built
so far the workloads selected by the diff rule, in list order. -/
theorem diffLoop_filter (cv : ContainerVersion) (version : String)
    (check : ContainerVersion → String → PodSpec → Except Err Bool) :
    ∀ (workloads acc : List Workload),
      (∀ wl ∈ workloads, ∃ eq, check cv version wl.podSpec = .ok eq) →
      diffLoop cv version check workloads acc
        = .ok (acc ++ workloads.filter (inUpdateSet cv version check)) := by
  intro workloads
  induction workloads with
  | nil => intro acc _; simp [diffLoop]
  | cons wl rest ih =>
    intro acc h
    have hrest : ∀ w ∈ rest, ∃ eq, check cv version w.podSpec = .ok eq :=
      fun w hw => h w (List.mem_cons_of_mem _ hw)
    obtain ⟨eq, heq⟩ := h wl (List.mem_cons_self _ _)
    by_cases hp : version = cv.status.currVersion ∧ cv.status.currStatus = StatusProgressing
    · have hin : inUpdateSet cv version check wl = true := by
        unfold inUpdateSet
        rw [decide_eq_true hp]
        rfl
      rw [diffLoop, if_pos hp, ih _ hrest, List.filter_cons, if_pos hin]
      simp
    · cases eq
      · have hin : inUpdateSet cv version check wl = true := by
          unfold inUpdateSet
          rw [heq]
          simp
        rw [diffLoop, if_neg hp, heq, List.filter_cons, if_pos hin]
        simp [ih _ hrest]
      · have hin : ¬ inUpdateSet cv version check wl = true := by
          unfold inUpdateSet
          rw [heq, decide_eq_false hp]
          simp
        rw [diffLoop, if_neg hp, heq, List.filter_cons, if_neg hin]
        simp [ih _ hrest]

/-- C1: when refresh, registry resolution, enumeration and every version check
succeed and the stability short-circuit does not apply, the cycle returns
`state.Many` of exactly one failure-wrapped chain per workload that is in the
update set by the diff rule, in the order of the workload list. -/
theorem initialState_fanout (s : Syncer) (env : SyncEnv) (cv : ContainerVersion)
    (version : String) (workloads : List Workload)
    (hcv : env.cv s.cv.name = .ok cv)
    (hver : env.registryVersion cv.spec.tag = .ok version)
    (hwl : env.workloads cv = .ok workloads)
    (hgate : ¬ (version = cv.status.currVersion ∧ cv.status.currStatus = StatusFailed))
    (hchk : ∀ wl ∈ workloads,
      ∃ eq, env.checkPodSpecContainerVersions cv version wl.podSpec = .ok eq) :
    (s.initialState env).result
      = .ok (.many ((workloads.filter
          (inUpdateSet cv version env.checkPodSpecContainerVersions)).map
            (fun wl => State.withFailure (workloadChain version wl) wl version))) := by
  simp [Syncer.initialState, hcv, hver, hwl, hgate,
    diffLoop_filter cv version env.checkPodSpecContainerVersions workloads [] hchk, buildStates]

/-- The witness of C1: the resource is recorded at `v1`, the registry resolves
`v2`, one workload runs `v1` and one already runs `v2`; the cycle fans out
into the single chain of the first workload. -/
theorem initialState_fanout_witness :
    (Syncer.initialState ⟨sampleCV⟩
        (sampleSyncEnv sampleCV "v2" [sampleWorkload, sampleJob])).result
      = .ok (.many [State.withFailure (workloadChain "v2" sampleWorkload) sampleWorkload "v2"]) :=
  (initialState_fanout ⟨sampleCV⟩ (sampleSyncEnv sampleCV "v2" [sampleWorkload, sampleJob])
    sampleCV "v2" [sampleWorkload, sampleJob] rfl rfl rfl (by decide)
    (fun _ _ => ⟨_, rfl⟩)).trans (by decide)

/-- C2: when refresh, registry resolution and enumeration succeed, the resolved
version equals the recorded version and the recorded status is Failed, the
cycle returns `state.None()`, which has no branches, whatever the workloads
and their version checks are. -/
theorem initialState_short_circuit (s : Syncer) (env : SyncEnv) (cv : ContainerVersion)
    (version : String) (workloads : List Workload)
    (hcv : env.cv s.cv.name = .ok cv)
    (hver : env.registryVersion cv.spec.tag = .ok version)
    (hwl : env.workloads cv = .ok workloads)
    (hversion : version = cv.status.currVersion)
    (hstatus : cv.status.currStatus = StatusFailed) :
    (s.initialState env).result = .ok .none ∧
      ∀ r, (s.initialState env).result = .ok r → r.branches = [] := by
  have h : (s.initialState env).result = .ok .none := by
    simp [Syncer.initialState, hcv, hver, hwl, hstatus, ← hversion]
  refine ⟨h, fun r hr => ?_⟩
  rw [h] at hr
  cases hr
  rfl

/-- The witness of C2: the resource is recorded at `v2`, status Failed, the
registry resolves `v2`, and a workload still runs `v1`. -/
theorem initialState_short_circuit_witness :
    (Syncer.initialState ⟨{ sampleCV with status := ⟨"v2", "Failed"⟩ }⟩
        (sampleSyncEnv { sampleCV with status := ⟨"v2", "Failed"⟩ } "v2"
          [sampleWorkload])).result = .ok .none :=
  (initialState_short_circuit ⟨{ sampleCV with status := ⟨"v2", "Failed"⟩ }⟩
    (sampleSyncEnv { sampleCV with status := ⟨"v2", "Failed"⟩ } "v2" [sampleWorkload])
    { sampleCV with status := ⟨"v2", "Failed"⟩ } "v2" [sampleWorkload]
    rfl rfl rfl rfl rfl).1

/-- The diff loop never drops what the slice already holds: an empty result
needs an empty start. -/
theorem diffLoop_nil_acc (cv : ContainerVersion) (version : String)
    (check : ContainerVersion → String → PodSpec → Except Err Bool) :
    ∀ (workloads acc : List Workload),
      diffLoop cv version check workloads acc = .ok [] → acc = [] := by
  intro workloads
  induction workloads with
  | nil => intro acc h; simpa [diffLoop] using h
  | cons wl rest ih =>
    intro acc h
    rw [diffLoop] at h
    split at h
    · simpa using ih _ h
    · split at h
      · cases h
      · split at h
        · simpa using ih _ h
        · exact ih _ h

/-- The update set is empty exactly when no workload is selected: no rollout of
the version is in progress and every version check returns true. -/
theorem diffLoop_empty_iff (cv : ContainerVersion) (version : String)
    (check : ContainerVersion → String → PodSpec → Except Err Bool) :
    ∀ (workloads : List Workload),
      diffLoop cv version check workloads [] = .ok [] ↔
        ∀ wl ∈ workloads,
          ¬ (version = cv.status.currVersion ∧ cv.status.currStatus = StatusProgressing) ∧
            check cv version wl.podSpec = .ok true := by
  intro workloads
  induction workloads with
  | nil => simp [diffLoop]
  | cons wl rest ih =>
    rw [diffLoop]
    by_cases hp : version = cv.status.currVersion ∧ cv.status.currStatus = StatusProgressing
    · rw [if_pos hp]
      constructor
      · intro h
        have := diffLoop_nil_acc cv version check rest _ h
        simp at this
      · intro h
        exact absurd hp (h wl (List.mem_cons_self _ _)).1
    · rw [if_neg hp]
      cases hc : check cv version wl.podSpec with
      | error e =>
        constructor
        · intro h; cases h
        · intro h
          have := (h wl (List.mem_cons_self _ _)).2
          rw [hc] at this
          cases this
      | ok eq =>
        cases eq
        · constructor
          · intro h
            have := diffLoop_nil_acc cv version check rest _ h
            simp at this
          · intro h
            have := (h wl (List.mem_cons_self _ _)).2
            rw [hc] at this
            cases this
        · simp only [Bool.not_true, Bool.false_eq_true, if_false]
          rw [ih]
          constructor
          · intro h w hw
            rcases List.mem_cons.mp hw with rfl | hw
            · exact ⟨hp, hc⟩
            · exact h w hw
          · intro h w hw
            exact h w (List.mem_cons_of_mem _ hw)

/-- C3, refuted as stated: with the resource recorded at `v1`, the registry
resolving `v2` and a workload running `v1`, the second run of the diff step on
the unchanged state yields the workload again, not the empty update set. -/
theorem diffTwice_second_nonempty :
    (diffTwice sampleCV "v2" sampleCheck [sampleWorkload]).2 = .ok [sampleWorkload] ∧
      (diffTwice sampleCV "v2" sampleCheck [sampleWorkload]).2 ≠ .ok [] := by
  have h : (diffTwice sampleCV "v2" sampleCheck [sampleWorkload]).2 = .ok [sampleWorkload] :=
    rfl
  refine ⟨h, ?_⟩
  rw [h]
  intro hne
  cases hne

/-- C3, amended: two runs of the diff step on the same recorded status,
resolved version and live workloads yield the same update set; the second is
empty exactly when no rollout of the resolved version is recorded as
Progressing and the version check of every workload returns true (so also
when there is no workload). -/
theorem diffTwice_second (cv : ContainerVersion) (version : String)
    (check : ContainerVersion → String → PodSpec → Except Err Bool)
    (workloads : List Workload) :
    (diffTwice cv version check workloads).2 = (diffTwice cv version check workloads).1 ∧
      ((diffTwice cv version check workloads).2 = .ok [] ↔
        ∀ wl ∈ workloads,
          ¬ (version = cv.status.currVersion ∧ cv.status.currStatus = StatusProgressing) ∧
            check cv version wl.podSpec = .ok true) :=
  ⟨rfl, diffLoop_empty_iff cv version check workloads⟩

/-! ## SimpleDeployer.Do -/

/-- An attempt that succeeds at once ends the retry loop with its variables. -/
theorem retryLoop_first_ok {σ : Type} (fn : σ → Option Err × σ) (n : Nat) (last : Option Err)
    (s : σ) (h : (fn s).1 = none) : retryLoop fn (n + 1) last s = (none, (fn s).2) := by
  rw [retryLoop]
  rcases hfn : fn s with ⟨e, s1⟩
  rw [hfn] at h
  simp only at h
  subst h
  rfl

/-- With every patch call succeeding, the range loop of `Do` returns nil and
has called PatchPodSpec on each container of the configured name, in order. -/
theorem patchLoop_all_ok (sd : SimpleDeployer) (patch : Nat → Option Err)
    (hok : ∀ i, patch i = none) :
    ∀ (cs : List Container) (vs : DoVars),
      (patchLoop sd patch cs vs).1 = none ∧
        (patchLoop sd patch cs vs).2.calls
          = vs.calls ++ (cs.filter (fun c => c.name = sd.cv.spec.container.name)).map
              (fun c => Call.patchPodSpec c sd.version) := by
  intro cs
  induction cs with
  | nil => intro vs; simp [patchLoop]
  | cons x rest ih =>
    intro vs
    rw [patchLoop]
    by_cases hx : x.name = sd.cv.spec.container.name
    · rw [if_pos hx, hok]
      refine ⟨(ih _).1, ?_⟩
      rw [(ih _).2, List.filter_cons]
      simp [hx]
    · rw [if_neg hx]
      refine ⟨(ih _).1, ?_⟩
      rw [(ih _).2, List.filter_cons]
      simp [hx]

/-- Without a container of the configured name, the range loop of `Do` returns
nil, calls nothing and leaves `container` alone. -/
theorem patchLoop_no_match (sd : SimpleDeployer) (patch : Nat → Option Err) :
    ∀ (cs : List Container) (vs : DoVars),
      (∀ c ∈ cs, c.name ≠ sd.cv.spec.container.name) →
      (patchLoop sd patch cs vs).1 = none ∧
        (patchLoop sd patch cs vs).2.calls = vs.calls ∧
        (patchLoop sd patch cs vs).2.container = vs.container := by
  intro cs
  induction cs with
  | nil => intro vs _; simp [patchLoop]
  | cons x rest ih =>
    intro vs h
    rw [patchLoop, if_neg (h x (List.mem_cons_self _ _))]
    exact ih _ (fun c hc => h c (List.mem_cons_of_mem _ hc))

/-- The calls of `Do` are those of its retried closure. -/
theorem Do_calls (sd : SimpleDeployer) (env : DeployEnv) :
    (sd.Do env).2
      = (RetryOnConflict DefaultRetrySteps (doAttempt sd env.patch) ⟨[], none⟩).2.calls := by
  unfold SimpleDeployer.Do
  split
  · next err v h => rw [h]
  · next v h =>
    rw [h]
    split
    · rfl
    · split <;> rfl

/-- C4, refuted as stated: with every patch call succeeding, `Do` calls
PatchPodSpec twice on a pod spec with two containers of the configured name,
and not at all on a pod spec without containers. -/
theorem Do_not_exactly_once :
    (∀ i, (sampleDeployEnv true 0).patch i = none) ∧
      (SimpleDeployer.Do ⟨sampleCV, "v2", sampleTwins, false, .nil⟩ (sampleDeployEnv true 0)).2
        = [Call.patchPodSpec ⟨"app", "repo/app:v1"⟩ "v2",
           Call.patchPodSpec ⟨"app", "repo/app:v0"⟩ "v2"] ∧
      (SimpleDeployer.Do ⟨sampleCV, "v2", sampleEmpty, false, .nil⟩ (sampleDeployEnv true 0)).2
        = [] :=
  ⟨fun _ => rfl, by decide, by decide⟩

/-- C4, amended: when every patch call succeeds, `Do` calls PatchPodSpec once
for each container of the pod spec whose name is the configured one, in the
order of the pod spec and with the new version, and makes no other call; so
exactly once when exactly one container carries that name. -/
theorem Do_patches_each_named (sd : SimpleDeployer) (env : DeployEnv)
    (hok : ∀ i, env.patch i = none) :
    (sd.Do env).2
        = (sd.target.podSpec.containers.filter
            (fun c => c.name = sd.cv.spec.container.name)).map
              (fun c => Call.patchPodSpec c sd.version) ∧
      ((sd.target.podSpec.containers.filter
          (fun c => c.name = sd.cv.spec.container.name)).length = 1 →
        ∃ c, c ∈ sd.target.podSpec.containers ∧ c.name = sd.cv.spec.container.name ∧
          (sd.Do env).2 = [Call.patchPodSpec c sd.version]) := by
  have hloop := patchLoop_all_ok sd env.patch hok sd.target.podSpec.containers ⟨[], none⟩
  have hatt : (doAttempt sd env.patch ⟨[], none⟩).1 = none ∧
      (doAttempt sd env.patch ⟨[], none⟩).2.calls
        = (sd.target.podSpec.containers.filter
            (fun c => c.name = sd.cv.spec.container.name)).map
              (fun c => Call.patchPodSpec c sd.version) := by
    unfold doAttempt
    exact ⟨hloop.1, by simpa using hloop.2⟩
  have hcalls : (sd.Do env).2
      = (sd.target.podSpec.containers.filter
          (fun c => c.name = sd.cv.spec.container.name)).map
            (fun c => Call.patchPodSpec c sd.version) := by
    rw [Do_calls, RetryOnConflict, DefaultRetrySteps, retryLoop_first_ok _ _ _ _ hatt.1]
    exact hatt.2
  refine ⟨hcalls, fun hlen => ?_⟩
  obtain ⟨c, hc⟩ := List.length_eq_one.mp hlen
  have hmem : c ∈ sd.target.podSpec.containers.filter
      (fun c => c.name = sd.cv.spec.container.name) := by
    rw [hc]
    exact List.mem_singleton_self c
  rw [List.mem_filter] at hmem
  refine ⟨c, hmem.1, by simpa using hmem.2, ?_⟩
  rw [hcalls, hc]
  rfl

/-- The witness of C4: with every patch call succeeding, the deployment of
`v2` to the sample workload patches its one container named `app`. -/
theorem Do_patches_each_named_witness :
    (SimpleDeployer.Do ⟨sampleCV, "v2", sampleWorkload, true, .nil⟩ (sampleDeployEnv false 0)).2
      = [Call.patchPodSpec ⟨"app", "repo/app:v1"⟩ "v2"] :=
  (Do_patches_each_named ⟨sampleCV, "v2", sampleWorkload, true, .nil⟩ (sampleDeployEnv false 0)
    (fun _ => rfl)).1.trans (by decide)

/-- C5: on a pod spec without a container of the configured name, `Do` returns
the container-not-found error, so neither the rollback-check state nor the
next state, and calls PatchPodSpec zero times. -/
theorem Do_container_not_found (sd : SimpleDeployer) (env : DeployEnv)
    (hnone : ∀ c ∈ sd.target.podSpec.containers, c.name ≠ sd.cv.spec.container.name) :
    sd.Do env = (.error (containerNotFound sd), []) := by
  have hloop := patchLoop_no_match sd env.patch sd.target.podSpec.containers
    ⟨[], none⟩ hnone
  have hatt : doAttempt sd env.patch ⟨[], none⟩ = (none, ⟨[], none⟩) := by
    unfold doAttempt
    rcases hpl : patchLoop sd env.patch sd.target.podSpec.containers ⟨[], none⟩
      with ⟨e, l⟩
    rw [hpl] at hloop
    obtain ⟨h1, h2, h3⟩ := hloop
    simp only at h1 h2 h3
    obtain ⟨calls, container⟩ := l
    simp only at h2 h3
    rw [h1, h2, h3]
  have hretry : RetryOnConflict DefaultRetrySteps (doAttempt sd env.patch) ⟨[], none⟩
      = (none, ⟨[], none⟩) := by
    rw [RetryOnConflict, DefaultRetrySteps, retryLoop_first_ok _ _ _ _ (by rw [hatt]), hatt]
  unfold SimpleDeployer.Do
  rw [hretry]

/-- The witness of C5: the sample resource names the container `app`, which a
pod spec holding only a sidecar does not contain. -/
theorem Do_container_not_found_witness :
    SimpleDeployer.Do
        ⟨sampleCV, "v2", ⟨"side", "Pod", ⟨[⟨"sidecar", "proxy:s9"⟩]⟩, none⟩, true, .nil⟩
        (sampleDeployEnv true 0)
      = (.error (.errorf "container with name %s not found in PodSpec for target %s"
          ["app", "side"]), []) :=
  Do_container_not_found
    ⟨sampleCV, "v2", ⟨"side", "Pod", ⟨[⟨"sidecar", "proxy:s9"⟩]⟩, none⟩, true, .nil⟩
    (sampleDeployEnv true 0) (by decide)

/-! ## The check-rollback state -/

/-- C7, refuted as stated: `Do` on a container whose image carries no tag
hands that container to the check-rollback state, and a poll of that state
10s into a 30s window does not reschedule: the extraction of the previous
version, which precedes the time gate, fails. -/
theorem checkRollbackState_untagged_no_reschedule :
    (SimpleDeployer.Do ⟨sampleCV, "v2", sampleUntagged, true, .nil⟩ (sampleDeployEnv false 0)).1
        = .ok (.single (SimpleDeployer.checkRollbackState
            ⟨sampleCV, "v2", sampleUntagged, true, .nil⟩ ⟨"app", "repo/app"⟩ .nil)) ∧
      runCheckRollbackState ⟨sampleCV, "v2", sampleUntagged, true, .nil⟩ ⟨"app", "repo/app"⟩ .nil
          (sampleDeployEnv false (10 * Second))
        = (.panic "index out of range [1] with length 1", []) :=
  ⟨by decide, by decide⟩

/-- C7, amended: for a container whose image reference contains `:` (the
extraction of the previous version is defined) and a non-nil rollback-after
`d`, the check-rollback state returns the same polling state delayed by
exactly 15 seconds, with no call issued, when `now < T0 + d`, and consults
ProgressHealth first when `now >= T0 + d`; with `d = 30s` a poll at `T0 + 10s`
reschedules and a poll at `T0 + 31s` consults the health. -/
theorem checkRollbackState_timing (sd : SimpleDeployer) (container : Container)
    (next : State) (env : DeployEnv) (d : Int) (prevVersion : String)
    (hd : sd.target.rollbackAfter = some d)
    (hv : version container.image = some prevVersion) :
    (env.now < env.startTime + d →
        runCheckRollbackState sd container next env
          = (.ok (.after (15 * Second) (sd.checkRollbackState container next)), [])) ∧
      (env.startTime + d ≤ env.now →
        (runCheckRollbackState sd container next env).2.head? = some Call.progressHealth) ∧
      (d = 30 * Second → env.now = env.startTime + 10 * Second →
        runCheckRollbackState sd container next env
          = (.ok (.after (15 * Second) (sd.checkRollbackState container next)), [])) ∧
      (d = 30 * Second → env.now = env.startTime + 31 * Second →
        (runCheckRollbackState sd container next env).2.head? = some Call.progressHealth) := by
  have hlt : env.now < env.startTime + d →
      runCheckRollbackState sd container next env
        = (.ok (.after (15 * Second) (sd.checkRollbackState container next)), []) := by
    intro h
    simp only [runCheckRollbackState, hd, hv, if_pos h]
  have hge : env.startTime + d ≤ env.now →
      (runCheckRollbackState sd container next env).2.head? = some Call.progressHealth := by
    intro h
    have hn : ¬ env.now < env.startTime + d := not_lt.mpr h
    simp only [runCheckRollbackState, hd, hv, if_neg hn]
    split
    · rfl
    · split <;> rfl
  refine ⟨hlt, hge, fun h30 hnow => hlt ?_, fun h30 hnow => hge ?_⟩
  · rw [h30, hnow]
    simp [Second]
  · rw [h30, hnow]
    simp [Second]

/-- The witness of C7: the sample workload has a 30s window and its container
image is `repo/app:v1`; a poll 10s after the start of the cycle reschedules. -/
theorem checkRollbackState_timing_witness :
    runCheckRollbackState ⟨sampleCV, "v2", sampleWorkload, true, .nil⟩ ⟨"app", "repo/app:v1"⟩
        .nil (sampleDeployEnv false (10 * Second))
      = (.ok (.after (15 * Second) (SimpleDeployer.checkRollbackState
          ⟨sampleCV, "v2", sampleWorkload, true, .nil⟩ ⟨"app", "repo/app:v1"⟩ .nil)), []) :=
  (checkRollbackState_timing ⟨sampleCV, "v2", sampleWorkload, true, .nil⟩
    ⟨"app", "repo/app:v1"⟩ .nil (sampleDeployEnv false (10 * Second)) (30 * Second) "v1"
    rfl (by decide)).1 (by decide)

/-- C8, refuted as stated: with `RollbackAfter()` pointing to a zero duration,
the check-rollback state of an unhealthy target consults ProgressHealth and
issues the rollback patch. -/
theorem checkRollbackState_zero_window_checks_health :
    sampleZeroWindow.rollbackAfter = some 0 ∧
      runCheckRollbackState ⟨sampleCV, "v2", sampleZeroWindow, true, .nil⟩
          ⟨"app", "repo/app:v1"⟩ .nil (sampleDeployEnv false 0)
        = (.ok (.single .nil),
            [Call.progressHealth, Call.patchPodSpec ⟨"app", "repo/app:v1"⟩ "v1"]) :=
  ⟨rfl, by decide⟩

/-- C8, amended: for every target whose `RollbackAfter()` is nil, the
check-rollback state continues with `next` without consulting ProgressHealth
and without issuing a patch. -/
theorem checkRollbackState_nil_window (sd : SimpleDeployer) (container : Container)
    (next : State) (env : DeployEnv) (hnil : sd.target.rollbackAfter = none) :
    runCheckRollbackState sd container next env = (.ok (.single next), []) := by
  simp only [runCheckRollbackState, hnil]

/-- The witness of C8: the sample job has no rollback window. -/
theorem checkRollbackState_nil_window_witness :
    runCheckRollbackState ⟨sampleCV, "v2", sampleJob, true, .nil⟩ ⟨"app", "repo/app:v2"⟩
        (.syncVersionConfig "v2" .nil) (sampleDeployEnv false (31 * Second))
      = (.ok (.single (.syncVersionConfig "v2" .nil)), []) :=
  checkRollbackState_nil_window ⟨sampleCV, "v2", sampleJob, true, .nil⟩ ⟨"app", "repo/app:v2"⟩
    (.syncVersionConfig "v2" .nil) (sampleDeployEnv false (31 * Second)) rfl

/-- C9: when the window has elapsed, the target is unhealthy and the rollback
PatchPodSpec call (made with the previous version parsed from the container
image) ends in an error after retry handling, the check-rollback state
returns that error and not `next`. -/
theorem checkRollbackState_rollback_error (sd : SimpleDeployer) (container : Container)
    (next : State) (env : DeployEnv) (d : Int) (prevVersion : String) (err : Err)
    (hd : sd.target.rollbackAfter = some d)
    (hv : version container.image = some prevVersion)
    (helapsed : env.startTime + d ≤ env.now)
    (hunhealthy : env.progressHealth = false)
    (hretry : (RetryOnConflict DefaultRetrySteps
        (rollbackAttempt container prevVersion env.patch) []).1 = some err) :
    (runCheckRollbackState sd container next env).1 = .error err := by
  have hn : ¬ env.now < env.startTime + d := not_lt.mpr helapsed
  simp only [runCheckRollbackState, hd, hv, if_neg hn, hunhealthy]
  rcases hr : RetryOnConflict DefaultRetrySteps
      (rollbackAttempt container prevVersion env.patch) [] with ⟨e, calls⟩
  rw [hr] at hretry
  simp only at hretry
  subst hretry
  simp

/-- The witness of C9: every patch call on the sample workload is answered by
a conflict; after the attempts are exhausted the state returns the conflict. -/
theorem checkRollbackState_rollback_error_witness :
    (runCheckRollbackState ⟨sampleCV, "v2", sampleWorkload, true, .nil⟩ ⟨"app", "repo/app:v1"⟩
        .nil (sampleFailingEnv (.api .conflict "the object has been modified") (31 * Second))).1
      = .error (.api .conflict "the object has been modified") :=
  checkRollbackState_rollback_error ⟨sampleCV, "v2", sampleWorkload, true, .nil⟩
    ⟨"app", "repo/app:v1"⟩ .nil
    (sampleFailingEnv (.api .conflict "the object has been modified") (31 * Second))
    (30 * Second) "v1" (.api .conflict "the object has been modified")
    rfl (by decide) (by decide) rfl (by decide)

/-! ## Config-map sync -/

/-- After `m[key] = value` the entry at `key` is `value`. -/
theorem mapLookup_mapAssign_same (m : List (String × String)) (key value : String) :
    mapLookup (mapAssign m key value) key = some value := by
  induction m with
  | nil => simp [mapAssign, mapLookup]
  | cons p rest ih =>
    obtain ⟨k, v⟩ := p
    by_cases hk : k = key
    · simp [mapAssign, mapLookup, hk]
    · simp [mapAssign, mapLookup, hk, ih]

/-- The assignment `m[key] = value` leaves every other key as it was. -/
theorem mapLookup_mapAssign_other (m : List (String × String)) (key value other : String)
    (hne : other ≠ key) :
    mapLookup (mapAssign m key value) other = mapLookup m other := by
  induction m with
  | nil =>
    have : ¬ key = other := fun h => hne h.symm
    simp [mapAssign, mapLookup, this]
  | cons p rest ih =>
    obtain ⟨k, v⟩ := p
    by_cases hk : k = key
    · have : ¬ key = other := fun h => hne h.symm
      simp [mapAssign, mapLookup, hk, this]
    · by_cases hko : k = other
      · simp [mapAssign, mapLookup, hk, if_pos hko]
      · simp [mapAssign, mapLookup, hk, if_neg hko, ih]

/-- What `syncVersionConfig` writes when the config reference is set and `Get`
does not fail for a reason other than absence. (1) No config map of the
configured name: one Create with data `key: version`. (2) One exists with a
non-nil data map whose value read at `key` (the empty string when the key is
absent) differs from the version: one Update of that config map with only
`key` reassigned. (3) The value read at `key` equals the version: no write.
In all three the state continues with `next` when the write succeeds. -/
theorem syncVersionConfig_writes (s : Syncer) (version : String) (next : State)
    (client : ConfigClient) (cfg : ConfigSpec)
    (hcfg : s.cv.spec.config = some cfg) (hget : client.getFault = none) :
    (client.store.find? (fun cm => cm.name = cfg.name) = none →
        (s.runSyncVersionConfig version next client).writes
            = [.create ⟨cfg.name, client.ns, some [(cfg.key, version)]⟩] ∧
          (client.createErr = none →
            (s.runSyncVersionConfig version next client).result = .ok (.single next))) ∧
      (∀ cm m, client.store.find? (fun cm => cm.name = cfg.name) = some cm →
        cm.data = some m → version ≠ mapIndex cm.data cfg.key →
        (s.runSyncVersionConfig version next client).writes
            = [.update ⟨cm.name, cm.ns, some (mapAssign m cfg.key version)⟩] ∧
          mapLookup (mapAssign m cfg.key version) cfg.key = some version ∧
          (∀ other, other ≠ cfg.key →
            mapLookup (mapAssign m cfg.key version) other = mapLookup m other) ∧
          (client.updateErr = none →
            (s.runSyncVersionConfig version next client).result = .ok (.single next))) ∧
      (∀ cm, client.store.find? (fun cm => cm.name = cfg.name) = some cm →
        version = mapIndex cm.data cfg.key →
        s.runSyncVersionConfig version next client = ⟨.ok (.single next), [], []⟩) := by
  refine ⟨fun hfind => ?_, fun cm m hfind hdata hne => ?_, fun cm hfind heq => ?_⟩
  · have hG : client.Get cfg.name
        = .error (.api .notFound ("configmaps " ++ cfg.name ++ " not found")) := by
      simp only [ConfigClient.Get, hget, hfind]
    constructor
    · simp only [Syncer.runSyncVersionConfig, hcfg, hG, IsNotFound, if_true, newVersionConfig]
      split <;> rfl
    · intro hc
      simp only [Syncer.runSyncVersionConfig, hcfg, hG, IsNotFound, if_true, hc]
  · have hG : client.Get cfg.name = .ok cm := by
      simp only [ConfigClient.Get, hget, hfind]
    have hne2 : ¬ version = mapIndex (some m) cfg.key := by
      rw [← hdata]
      exact hne
    refine ⟨?_, mapLookup_mapAssign_same m cfg.key version,
      fun other ho => mapLookup_mapAssign_other m cfg.key version other ho, ?_⟩
    · simp only [Syncer.runSyncVersionConfig, hcfg, hG, hdata, if_neg hne2]
      split <;> rfl
    · intro hu
      simp only [Syncer.runSyncVersionConfig, hcfg, hG, hdata, if_neg hne2, hu]
  · have hG : client.Get cfg.name = .ok cm := by
      simp only [ConfigClient.Get, hget, hfind]
    simp only [Syncer.runSyncVersionConfig, hcfg, hG, if_pos heq]

/-- C10, evaluated where the code departs from it: the config map `versions`
exists and has no data (its `Data` is the nil map), the configured key is
`app` and the resolved version is `v2`. The value read at the key is the empty
string, which differs from `v2`; the assignment `cm.Data[key] = version` then
writes to a nil map: no Update is issued and the state does not continue with
`next`. -/
theorem syncVersionConfig_nil_data :
    sampleCV.spec.config = some ⟨"versions", "app"⟩ ∧
      Syncer.runSyncVersionConfig ⟨sampleCV⟩ "v2" .nil
          (sampleClient [⟨"versions", "default", none⟩])
        = ⟨.panic "assignment to entry in nil map", [], []⟩ :=
  ⟨rfl, by decide⟩

/-! ## Version extraction -/

/-- What `splitAfterFirst` returns: the two parts make up the input, the first
part ends with the separator and holds no other occurrence of it. -/
theorem splitAfterFirst_some (sep : Char) :
    ∀ (l p r : List Char), splitAfterFirst sep l = some (p, r) →
      p ++ r = l ∧ ∃ q, p = q ++ [sep] ∧ sep ∉ q := by
  intro l
  induction l with
  | nil => intro p r h; simp [splitAfterFirst] at h
  | cons c cs ih =>
    intro p r h
    rw [splitAfterFirst] at h
    by_cases hc : c = sep
    · rw [if_pos hc] at h
      cases h
      exact ⟨rfl, [], by simp [hc], by simp⟩
    · rw [if_neg hc] at h
      cases hs : splitAfterFirst sep cs with
      | none => rw [hs] at h; cases h
      | some pr =>
        obtain ⟨p1, r1⟩ := pr
        rw [hs] at h
        cases h
        obtain ⟨hcat, q, hq, hnot⟩ := ih p1 r hs
        refine ⟨by rw [List.cons_append, hcat], c :: q, by rw [hq, List.cons_append], ?_⟩
        intro hmem
        rcases List.mem_cons.mp hmem with h1 | h1
        · exact hc h1.symm
        · exact hnot h1

/-- The separator occurs exactly when `splitAfterFirst` finds a split. -/
theorem splitAfterFirst_isSome (sep : Char) :
    ∀ (l : List Char), (splitAfterFirst sep l).isSome = true ↔ sep ∈ l := by
  intro l
  induction l with
  | nil => simp [splitAfterFirst]
  | cons c cs ih =>
    rw [splitAfterFirst]
    by_cases hc : c = sep
    · simp [hc]
    · rw [if_neg hc]
      have hne : ¬ sep = c := fun h => hc h.symm
      cases hs : splitAfterFirst sep cs with
      | none =>
        rw [hs] at ih
        have : sep ∉ cs := fun h => by simpa using ih.mpr h
        simp [hne, this]
      | some pr =>
        rw [hs] at ih
        have : sep ∈ cs := ih.mp rfl
        simp [this]

/-- The check-rollback state of a target with a rollback window fails at
simple.go line 85 exactly when the image of the captured container holds no
`:`. -/
theorem checkRollbackState_panics_iff (sd : SimpleDeployer) (container : Container)
    (next : State) (env : DeployEnv) (d : Int) (hd : sd.target.rollbackAfter = some d) :
    (∃ msg, (runCheckRollbackState sd container next env).1 = .panic msg) ↔
      ':' ∉ container.image.data := by
  rw [← splitAfterFirst_isSome]
  unfold runCheckRollbackState
  rw [hd]
  simp only
  unfold version SplitAfterN
  cases hs : splitAfterFirst ':' container.image.data with
  | none => simp
  | some pr =>
    simp only [List.getElem?_cons_succ, List.getElem?_cons_zero, Option.isSome_some,
      not_true_eq_false, iff_false, not_exists]
    intro msg
    split
    · simp
    · split
      · simp
      · split <;> simp

/-- C13: the extraction `strings.SplitAfterN(img, ":", 2)[1]` is defined
exactly when the image reference contains `:`; when defined, its result is
the text after the first `:`, so the text up to and including the first `:`
followed by the result is the image reference. -/
theorem version_defined_iff (img : String) :
    ((version img).isSome = true ↔ ':' ∈ img.data) ∧
      ∀ v, version img = some v →
        ∃ repo : List Char, ':' ∉ repo ∧ SplitAfterN img ':' = [String.mk (repo ++ [':']), v] ∧
          String.mk (repo ++ [':']) ++ v = img := by
  constructor
  · rw [← splitAfterFirst_isSome]
    unfold version SplitAfterN
    cases hs : splitAfterFirst ':' img.data with
    | none => simp
    | some pr => simp
  · intro v hv
    unfold version SplitAfterN at hv
    cases hs : splitAfterFirst ':' img.data with
    | none => rw [hs] at hv; simp at hv
    | some pr =>
      obtain ⟨p, r⟩ := pr
      rw [hs] at hv
      simp at hv
      subst hv
      obtain ⟨hcat, q, hq, hnot⟩ := splitAfterFirst_some ':' img.data p r hs
      subst hq
      refine ⟨q, hnot, ?_, ?_⟩
      · unfold SplitAfterN
        rw [hs]
      · apply String.ext
        rw [String.data_append]
        exact hcat

/-! ## History -/

/-- C12: whatever `historyProvider.Add` returns, `addHistory` returns the
single successor `next`, never an error; with history disabled it calls
nothing, and with history enabled it calls `Add` exactly once, under the
configured history name, or the target's name when that is empty, with a
record of the target's type and name and the version. -/
theorem addHistory_best_effort (s : Syncer) (version : String) (target : Workload)
    (next : State) (env : ChainEnv) :
    (s.runAddHistory version target next env).result = .ok (.single next) ∧
      (s.cv.spec.history.enabled = false →
        (s.runAddHistory version target next env).effects = []) ∧
      (s.cv.spec.history.enabled = true →
        (s.runAddHistory version target next env).effects.filter Effect.isHistoryAdd
          = [.historyAdd env.client.ns
              (if s.cv.spec.history.name = "" then target.name else s.cv.spec.history.name)
              ⟨target.typ, target.name, version, env.now⟩]) := by
  unfold Syncer.runAddHistory
  cases hen : s.cv.spec.history.enabled
  · simp
  · simp only [Bool.not_true, Bool.false_eq_true, if_false]
    split <;> simp [Effect.isHistoryAdd, List.filter_cons]

/-! ## The order of a workload chain -/

/-- A state whose function returns exactly one successor is followed by the
run of that successor. -/
theorem runBranch_single (env : ChainEnv) (n : Nat) (s : Syncer) (st next : State) (k : Step)
    (hst : st.step = some k) (hres : (runState env s st).result = .ok (.single next)) :
    runBranch env (n + 1) s st = (runBranch env n (runState env s st).syncer next).after st := by
  cases st <;> first
    | (simp [State.step] at hst; done)
    | (rw [runBranch]
       · simp only [hres]
       · intro h; cases h
       · intro _ _ _ h; cases h)

/-- A state whose function returns an error ends the branch as failed. -/
theorem runBranch_error (env : ChainEnv) (n : Nat) (s : Syncer) (st : State) (k : Step)
    (e : Err) (hst : st.step = some k) (hres : (runState env s st).result = .error e) :
    runBranch env (n + 1) s st = ⟨.failed e, [k], (runState env s st).syncer⟩ := by
  cases st <;> first
    | (simp [State.step] at hst; done)
    | (rw [runBranch]
       · simp only [hres, hst, Option.toList_some]
       · intro h; cases h
       · intro _ _ _ h; cases h)

/-- A state whose function hits a runtime failure ends the branch. -/
theorem runBranch_panic (env : ChainEnv) (n : Nat) (s : Syncer) (st : State) (k : Step)
    (msg : String) (hst : st.step = some k) (hres : (runState env s st).result = .panic msg) :
    runBranch env (n + 1) s st = ⟨.panicked msg, [k], (runState env s st).syncer⟩ := by
  cases st <;> first
    | (simp [State.step] at hst; done)
    | (rw [runBranch]
       · simp only [hres, hst, Option.toList_some]
       · intro h; cases h
       · intro _ _ _ h; cases h)

/-- Recording the state invoked before a run that follows the expected states. -/
theorem follows_after (r : BranchRun) (st : State) (k : Step) (suf : List Step)
    (hk : st.step = some k) (h : r.Follows suf) : (r.after st).Follows (k :: suf) := by
  obtain ⟨h1, h2, h3⟩ := h
  refine ⟨h1, ?_, fun hf => ?_⟩
  · simp only [BranchRun.after, hk, Option.toList_some, List.singleton_append]
    exact List.cons_prefix_cons.mpr ⟨rfl, h2⟩
  · simp only [BranchRun.after, hk, Option.toList_some, List.singleton_append]
    rw [h3 hf]

/-- A state that returns its one successor `next`, an error or a runtime
failure keeps the run on the expected states when the run of `next` does. -/
theorem runBranch_follows (env : ChainEnv) (n : Nat) (s : Syncer) (st next : State) (k : Step)
    (suf : List Step) (hst : st.step = some k)
    (hres : (runState env s st).result = .ok (.single next) ∨
      (∃ e, (runState env s st).result = .error e) ∨
      (∃ msg, (runState env s st).result = .panic msg))
    (h : ∀ s1, (runBranch env n s1 next).Follows suf) :
    (runBranch env (n + 1) s st).Follows (k :: suf) := by
  rcases hres with hres | ⟨e, hres⟩ | ⟨msg, hres⟩
  · rw [runBranch_single env n s st next k hst hres]
    exact follows_after _ _ _ _ hst (h _)
  · rw [runBranch_error env n s st k e hst hres]
    exact ⟨by simp, List.cons_prefix_cons.mpr ⟨rfl, List.nil_prefix⟩, by simp⟩
  · rw [runBranch_panic env n s st k msg hst hres]
    exact ⟨by simp, List.cons_prefix_cons.mpr ⟨rfl, List.nil_prefix⟩, by simp⟩

/-- The results of `syncVersionConfig`: the successor `next`, an error, or the
runtime failure of the write to a nil map. -/
theorem runSyncVersionConfig_result (s : Syncer) (version : String) (next : State)
    (client : ConfigClient) :
    (s.runSyncVersionConfig version next client).result = .ok (.single next) ∨
      (∃ e, (s.runSyncVersionConfig version next client).result = .error e) ∨
      (∃ msg, (s.runSyncVersionConfig version next client).result = .panic msg) := by
  unfold Syncer.runSyncVersionConfig
  split
  · exact Or.inl rfl
  · split
    · split
      · split
        · exact Or.inr (Or.inl ⟨_, rfl⟩)
        · exact Or.inl rfl
      · exact Or.inr (Or.inl ⟨_, rfl⟩)
    · split
      · exact Or.inl rfl
      · split
        · exact Or.inr (Or.inr ⟨_, rfl⟩)
        · split
          · exact Or.inr (Or.inl ⟨_, rfl⟩)
          · exact Or.inl rfl

/-- The results of `updateRolloutStatus`: the successor `next` or an error. -/
theorem runUpdateRolloutStatus_result (s : Syncer) (version status : String) (next : State)
    (env : ChainEnv) :
    (s.runUpdateRolloutStatus version status next env).result = .ok (.single next) ∨
      ∃ e, (s.runUpdateRolloutStatus version status next env).result = .error e := by
  unfold Syncer.runUpdateRolloutStatus
  split
  · exact Or.inl rfl
  · split
    · exact Or.inr ⟨_, rfl⟩
    · exact Or.inl rfl

/-- The result of `addHistory` is the successor `next`. -/
theorem runAddHistory_result (s : Syncer) (version : String) (target : Workload)
    (next : State) (env : ChainEnv) :
    (s.runAddHistory version target next env).result = .ok (.single next) := by
  unfold Syncer.runAddHistory
  split
  · rfl
  · simp only
    split <;> rfl

/-- The part of a workload chain from mark-Progressing on follows the declared
states, whatever the syncer holds when it starts. -/
theorem runBranch_tail (env : ChainEnv) (n : Nat) (s : Syncer) (version : String)
    (wl : Workload) :
    (runBranch env (n + 8) s
        (.updateRolloutStatus version StatusProgressing
          (.deploy version wl
            (.successfulDeploymentStats wl
              (.syncVersionConfig version
                (.addHistory version wl
                  (.updateRolloutStatus version StatusSuccess .nil))))))).Follows
      [.updateRolloutStatus StatusProgressing, .deploy, .deployer, .successfulDeploymentStats,
       .syncVersionConfig, .addHistory, .updateRolloutStatus StatusSuccess] := by
  refine runBranch_follows env (n + 7) s _ _ _ _ rfl
    ((runUpdateRolloutStatus_result s _ _ _ env).imp id Or.inl) (fun s1 => ?_)
  refine runBranch_follows env (n + 6) s1 _ _ _ _ rfl (Or.inl rfl) (fun s2 => ?_)
  have hdep : (runState env s2 (.newDeployState s1.cv version wl
        (.successfulDeploymentStats wl
          (.syncVersionConfig version
            (.addHistory version wl
              (.updateRolloutStatus version StatusSuccess .nil)))))).result
        = .ok (.single (.successfulDeploymentStats wl
          (.syncVersionConfig version
            (.addHistory version wl
              (.updateRolloutStatus version StatusSuccess .nil))))) ∨
      (∃ e, (runState env s2 (.newDeployState s1.cv version wl
        (.successfulDeploymentStats wl
          (.syncVersionConfig version
            (.addHistory version wl
              (.updateRolloutStatus version StatusSuccess .nil)))))).result = .error e) ∨
      (∃ msg, (runState env s2 (.newDeployState s1.cv version wl
        (.successfulDeploymentStats wl
          (.syncVersionConfig version
            (.addHistory version wl
              (.updateRolloutStatus version StatusSuccess .nil)))))).result = .panic msg) := by
    simp only [runState]
    cases env.deployer version wl with
    | none => exact Or.inl rfl
    | some e => exact Or.inr (Or.inl ⟨e, rfl⟩)
  refine runBranch_follows env (n + 5) s2 _ _ _ _ rfl hdep (fun s3 => ?_)
  refine runBranch_follows env (n + 4) s3 _ _ _ _ rfl (Or.inl rfl) (fun s4 => ?_)
  refine runBranch_follows env (n + 3) s4 _ _ _ _ rfl
    (runSyncVersionConfig_result s4 _ _ env.client) (fun s5 => ?_)
  refine runBranch_follows env (n + 2) s5 _ _ _ _ rfl
    (Or.inl (runAddHistory_result s5 _ _ _ env)) (fun s6 => ?_)
  refine runBranch_follows env (n + 1) s6 _ _ _ _ rfl
    ((runUpdateRolloutStatus_result s6 _ _ _ env).imp id Or.inl) (fun s7 => ?_)
  rw [runBranch]
  exact ⟨by simp, by simp, by simp⟩

/-- A state that returns its one successor `next` finishes when the run of
`next` does. -/
theorem runBranch_finished (env : ChainEnv) (n : Nat) (s : Syncer) (st next : State) (k : Step)
    (hst : st.step = some k) (hres : (runState env s st).result = .ok (.single next))
    (h : ∀ s1, (runBranch env n s1 next).outcome = .finished) :
    (runBranch env (n + 1) s st).outcome = .finished := by
  rw [runBranch_single env n s st next k hst hres]
  exact h _

/-- When every call on the derived config store succeeds and no config map in
the store has a nil data map, `syncVersionConfig` returns the successor
`next`. -/
theorem runSyncVersionConfig_ok (s : Syncer) (version : String) (next : State)
    (client : ConfigClient) (hget : client.getFault = none) (hcreate : client.createErr = none)
    (hupdate : client.updateErr = none) (hdata : ∀ cm ∈ client.store, cm.data ≠ none) :
    (s.runSyncVersionConfig version next client).result = .ok (.single next) := by
  unfold Syncer.runSyncVersionConfig
  split
  · rfl
  · next cfg _ =>
    unfold ConfigClient.Get
    rw [hget]
    simp only
    cases hfind : client.store.find? (fun cm => cm.name = cfg.name) with
    | none => simp [IsNotFound, hcreate]
    | some cm =>
      simp only
      split
      · rfl
      · have hmem : cm ∈ client.store := List.mem_of_find?_eq_some hfind
        cases hd : cm.data with
        | none => exact absurd hd (hdata cm hmem)
        | some m => simp only [hupdate]

/-- When every status update succeeds, `updateRolloutStatus` returns the
successor `next`. -/
theorem runUpdateRolloutStatus_ok (s : Syncer) (version status : String) (next : State)
    (env : ChainEnv)
    (hupd : ∀ name status, ∃ cv, env.updateRolloutStatus name version status = .ok cv) :
    (s.runUpdateRolloutStatus version status next env).result = .ok (.single next) := by
  unfold Syncer.runUpdateRolloutStatus
  split
  · rfl
  · obtain ⟨cv, hcv⟩ := hupd s.cv.name status
    rw [hcv]

/-- When every collaborator call succeeds and no config map in the store has a
nil data map, the part of a workload chain from mark-Progressing on
finishes. -/
theorem runBranch_tail_finished (env : ChainEnv) (n : Nat) (s : Syncer) (version : String)
    (wl : Workload) (hdeploy : env.deployer version wl = none)
    (hupd : ∀ name status, ∃ cv, env.updateRolloutStatus name version status = .ok cv)
    (hget : env.client.getFault = none) (hcreate : env.client.createErr = none)
    (hupdate : env.client.updateErr = none)
    (hdata : ∀ cm ∈ env.client.store, cm.data ≠ none) :
    (runBranch env (n + 8) s
        (.updateRolloutStatus version StatusProgressing
          (.deploy version wl
            (.successfulDeploymentStats wl
              (.syncVersionConfig version
                (.addHistory version wl
                  (.updateRolloutStatus version StatusSuccess .nil))))))).outcome
      = .finished := by
  refine runBranch_finished env (n + 7) s _ _ _ rfl
    (runUpdateRolloutStatus_ok s _ _ _ env hupd) (fun s1 => ?_)
  refine runBranch_finished env (n + 6) s1 _ _ _ rfl rfl (fun s2 => ?_)
  refine runBranch_finished env (n + 5) s2 _
    (.successfulDeploymentStats wl
      (.syncVersionConfig version
        (.addHistory version wl
          (.updateRolloutStatus version StatusSuccess .nil)))) _ rfl ?_ (fun s3 => ?_)
  · simp only [runState, hdeploy]
  refine runBranch_finished env (n + 4) s3 _ _ _ rfl rfl (fun s4 => ?_)
  refine runBranch_finished env (n + 3) s4 _ _ _ rfl
    (runSyncVersionConfig_ok s4 _ _ env.client hget hcreate hupdate hdata) (fun s5 => ?_)
  refine runBranch_finished env (n + 2) s5 _ _ _ rfl
    (runAddHistory_result s5 _ _ _ env) (fun s6 => ?_)
  refine runBranch_finished env (n + 1) s6 _ _ _ rfl
    (runUpdateRolloutStatus_ok s6 _ _ _ env hupd) (fun s7 => ?_)
  rw [runBranch]

/-- C11: the branch that `initialState` builds for a workload invokes, one
state after the single successor returned by the one before, verify, mark
status Progressing, deploy, record success stats, sync version config, record
history and mark status Success, in this order (with the verifiers after
verify unless the rollout is already Progressing, and the deployment strategy
after deploy). Eleven looks of the engine are enough for the run to end; the
states invoked are always an initial part of that sequence; when no state
fails the run invokes all of them and finishes after mark-Success with no
further successor; and no state fails when verification, deployment, the
status updates and the calls on the config store succeed and no config map in
the store has a nil data map. -/
theorem workloadChain_order (env : ChainEnv) (s : Syncer) (version : String) (wl : Workload)
    (fuel : Nat) (hfuel : 11 ≤ fuel) :
    (runBranch env fuel s (.withFailure (workloadChain version wl) wl version)).outcome
        ≠ .outOfFuel ∧
      (runBranch env fuel s (.withFailure (workloadChain version wl) wl version)).trace
        <+: expectedTrace s version ∧
      ((runBranch env fuel s (.withFailure (workloadChain version wl) wl version)).outcome
          = .finished →
        (runBranch env fuel s (.withFailure (workloadChain version wl) wl version)).trace
            = expectedTrace s version ∧
          ((runBranch env fuel s (.withFailure (workloadChain version wl) wl version)).trace.filter
            Step.isChainStep) = declaredSequence) ∧
      (env.verifiers version = none → env.deployer version wl = none →
        (∀ name status, ∃ cv, env.updateRolloutStatus name version status = .ok cv) →
        env.client.getFault = none → env.client.createErr = none →
        env.client.updateErr = none → (∀ cm ∈ env.client.store, cm.data ≠ none) →
        (runBranch env fuel s (.withFailure (workloadChain version wl) wl version)).outcome
          = .finished) := by
  obtain ⟨m, rfl⟩ : ∃ m, fuel = m + 11 := ⟨fuel - 11, by omega⟩
  have hfollows : (runBranch env (m + 11) s
      (.withFailure (workloadChain version wl) wl version)).Follows (expectedTrace s version) := by
    rw [runBranch]
    unfold workloadChain expectedTrace
    by_cases hp : version = s.cv.status.currVersion ∧ s.cv.status.currStatus = StatusProgressing
    · rw [if_pos hp, List.nil_append]
      refine runBranch_follows env (m + 9) s _ _ _ _ rfl (Or.inl ?_)
        (fun s1 => runBranch_tail env (m + 1) s1 version wl)
      simp only [runState, Syncer.runVerify, if_pos hp]
    · rw [if_neg hp, List.singleton_append]
      refine runBranch_follows env (m + 9) s _
        (.newVerifiers version
          (.updateRolloutStatus version StatusProgressing
            (.deploy version wl
              (.successfulDeploymentStats wl
                (.syncVersionConfig version
                  (.addHistory version wl
                    (.updateRolloutStatus version StatusSuccess .nil))))))) _ _ rfl (Or.inl ?_)
        (fun s1 => ?_)
      · simp only [runState, Syncer.runVerify, if_neg hp]
      · refine runBranch_follows env (m + 8) s1 _ _ _ _ rfl ?_
          (fun s2 => runBranch_tail env m s2 version wl)
        simp only [runState]
        cases env.verifiers version with
        | none => exact Or.inl rfl
        | some e => exact Or.inr (Or.inl ⟨e, rfl⟩)
  obtain ⟨h1, h2, h3⟩ := hfollows
  refine ⟨h1, h2, fun hf => ⟨h3 hf, ?_⟩, ?_⟩
  · rw [h3 hf]
    unfold expectedTrace
    split <;> rfl
  · intro hver hdeploy hupd hget hcreate hupdate hdata
    rw [runBranch]
    unfold workloadChain
    by_cases hp : version = s.cv.status.currVersion ∧ s.cv.status.currStatus = StatusProgressing
    · refine runBranch_finished env (m + 9) s _ _ _ rfl ?_
        (fun s1 => runBranch_tail_finished env (m + 1) s1 version wl hdeploy hupd hget hcreate
          hupdate hdata)
      simp only [runState, Syncer.runVerify, if_pos hp]
    · refine runBranch_finished env (m + 9) s _
        (.newVerifiers version
          (.updateRolloutStatus version StatusProgressing
            (.deploy version wl
              (.successfulDeploymentStats wl
                (.syncVersionConfig version
                  (.addHistory version wl
                    (.updateRolloutStatus version StatusSuccess .nil))))))) _ rfl ?_
        (fun s1 => ?_)
      · simp only [runState, Syncer.runVerify, if_neg hp]
      · refine runBranch_finished env (m + 8) s1 _ _ _ rfl ?_
          (fun s2 => runBranch_tail_finished env m s2 version wl hdeploy hupd hget hcreate
            hupdate hdata)
        simp only [runState, hver]

/-- The witness of C11: every collaborator call succeeds and the derived
config store is empty; with eleven looks the branch of the sample workload
finishes after the nine states of the expected sequence. -/
theorem workloadChain_order_witness :
    (runBranch (sampleChainEnv []) 11 ⟨sampleCV⟩
        (.withFailure (workloadChain "v2" sampleWorkload) sampleWorkload "v2")).outcome
        = .finished ∧
      (runBranch (sampleChainEnv []) 11 ⟨sampleCV⟩
        (.withFailure (workloadChain "v2" sampleWorkload) sampleWorkload "v2")).trace
        = [.verify, .verifiers, .updateRolloutStatus "Progressing", .deploy, .deployer,
           .successfulDeploymentStats, .syncVersionConfig, .addHistory,
           .updateRolloutStatus "Success"] :=
  ⟨by decide,
    ((workloadChain_order (sampleChainEnv []) ⟨sampleCV⟩ "v2" sampleWorkload 11
      (by decide)).2.2.1 (by decide)).1.trans (by decide)⟩

/-! ## Rollback of the named container -/

/-- The range loop of `Do` only ever makes `container` designate a container
of the pod spec that carries the configured name. -/
theorem patchLoop_container_named (sd : SimpleDeployer) (patch : Nat → Option Err)
    (all : List Container) :
    ∀ (cs : List Container) (vs : DoVars), (∀ c ∈ cs, c ∈ all) →
      (∀ c, vs.container = some c → c ∈ all ∧ c.name = sd.cv.spec.container.name) →
      ∀ c, (patchLoop sd patch cs vs).2.container = some c →
        c ∈ all ∧ c.name = sd.cv.spec.container.name := by
  intro cs
  induction cs with
  | nil => intro vs _ hvs c hc; exact hvs c (by simpa [patchLoop] using hc)
  | cons x rest ih =>
    intro vs hsub hvs c hc
    have hrest : ∀ y ∈ rest, y ∈ all := fun y hy => hsub y (List.mem_cons_of_mem _ hy)
    rw [patchLoop] at hc
    by_cases hx : x.name = sd.cv.spec.container.name
    · rw [if_pos hx] at hc
      cases hp : patch vs.calls.length with
      | some e =>
        rw [hp] at hc
        exact hvs c hc
      | none =>
        rw [hp] at hc
        refine ih _ hrest ?_ c hc
        intro y hy
        cases hy
        exact ⟨hsub x (List.mem_cons_self _ _), hx⟩
    · rw [if_neg hx] at hc
      exact ih _ hrest hvs c hc

/-- A property of the retried variables that every attempt preserves holds
when the retry loop is left. -/
theorem retryLoop_preserves {σ : Type} (fn : σ → Option Err × σ) (P : σ → Prop)
    (hfn : ∀ s, P s → P (fn s).2) :
    ∀ (n : Nat) (last : Option Err) (s : σ), P s → P (retryLoop fn n last s).2 := by
  intro n
  induction n with
  | zero => intro last s hs; simpa [retryLoop] using hs
  | succ n ih =>
    intro last s hs
    rw [retryLoop]
    have h1 := hfn s hs
    rcases hf : fn s with ⟨e, s1⟩
    rw [hf] at h1
    cases e with
    | none => exact h1
    | some err =>
      simp only
      split
      · exact ih _ _ h1
      · exact h1

/-- The state `Do` continues with when rollback checking is on is the
check-rollback state of a container of the pod spec that carries the
configured name. -/
theorem Do_hands_over_named (sd : SimpleDeployer) (env : DeployEnv) (st : State)
    (hcheck : sd.checkRollback = true) (hDo : (sd.Do env).1 = .ok (.single st)) :
    ∃ container, st = sd.checkRollbackState container sd.next ∧
      container ∈ sd.target.podSpec.containers ∧
      container.name = sd.cv.spec.container.name := by
  have hinv : ∀ c, (RetryOnConflict DefaultRetrySteps (doAttempt sd env.patch)
      ⟨[], none⟩).2.container = some c →
      c ∈ sd.target.podSpec.containers ∧ c.name = sd.cv.spec.container.name := by
    unfold RetryOnConflict
    refine retryLoop_preserves (doAttempt sd env.patch)
      (fun v => ∀ c, v.container = some c →
        c ∈ sd.target.podSpec.containers ∧ c.name = sd.cv.spec.container.name)
      (fun v hv => ?_) _ _ _ ?_
    · unfold doAttempt
      exact patchLoop_container_named sd env.patch sd.target.podSpec.containers
        sd.target.podSpec.containers v (fun c hc => hc) hv
    · intro c hc
      cases hc
  unfold SimpleDeployer.Do at hDo
  rcases hr : RetryOnConflict DefaultRetrySteps (doAttempt sd env.patch) ⟨[], none⟩
    with ⟨e, v⟩
  rw [hr] at hDo hinv
  cases e with
  | some err => simp at hDo
  | none =>
    simp only at hDo hinv
    cases hc : v.container with
    | none => rw [hc] at hDo; simp at hDo
    | some container =>
      rw [hc] at hDo
      simp only [hcheck, if_true] at hDo
      injection hDo with hDo
      injection hDo with hDo
      exact ⟨container, hDo.symm, hinv container hc⟩

/-- When every patch call succeeds, rollback checking is on and the pod spec
holds a container of the configured name, `Do` does continue with a
check-rollback state. -/
theorem Do_reaches_check_rollback (sd : SimpleDeployer) (env : DeployEnv)
    (hok : ∀ i, env.patch i = none) (hcheck : sd.checkRollback = true)
    (x : Container) (hx : x ∈ sd.target.podSpec.containers)
    (hname : x.name = sd.cv.spec.container.name) :
    ∃ container, (sd.Do env).1 = .ok (.single (sd.checkRollbackState container sd.next)) := by
  have hsome : ∀ (cs : List Container) (vs : DoVars),
      (vs.container.isSome = true ∨ ∃ c ∈ cs, c.name = sd.cv.spec.container.name) →
      (patchLoop sd env.patch cs vs).2.container.isSome = true := by
    intro cs
    induction cs with
    | nil =>
      intro vs h
      rcases h with h | ⟨c, hc, _⟩
      · simpa [patchLoop] using h
      · cases hc
    | cons y rest ih =>
      intro vs h
      rw [patchLoop]
      by_cases hy : y.name = sd.cv.spec.container.name
      · rw [if_pos hy, hok]
        exact ih _ (Or.inl rfl)
      · rw [if_neg hy]
        refine ih _ ?_
        rcases h with h | ⟨c, hc, hcn⟩
        · exact Or.inl h
        · rcases List.mem_cons.mp hc with rfl | hc
          · exact absurd hcn hy
          · exact Or.inr ⟨c, hc, hcn⟩
  have h1 : (doAttempt sd env.patch ⟨[], none⟩).1 = none := by
    unfold doAttempt
    exact (patchLoop_all_ok sd env.patch hok _ _).1
  have h2 : (doAttempt sd env.patch ⟨[], none⟩).2.container.isSome = true := by
    unfold doAttempt
    exact hsome _ _ (Or.inr ⟨x, hx, hname⟩)
  obtain ⟨container, hcont⟩ := Option.isSome_iff_exists.mp h2
  refine ⟨container, ?_⟩
  unfold SimpleDeployer.Do
  rw [RetryOnConflict, DefaultRetrySteps, retryLoop_first_ok _ _ _ _ h1]
  simp only [hcont, hcheck, if_true]

/-- The calls of the retried rollback: the same PatchPodSpec call, once per
attempt, and at least once when an attempt is made. -/
theorem rollback_retry_calls (container : Container) (prevVersion : String)
    (patch : Nat → Option Err) :
    ∀ (n : Nat) (last : Option Err) (calls : List Call),
      ∃ k, (0 < n → 0 < k) ∧
        (retryLoop (rollbackAttempt container prevVersion patch) n last calls).2
          = calls ++ List.replicate k (Call.patchPodSpec container prevVersion) := by
  intro n
  induction n with
  | zero => intro last calls; exact ⟨0, by simp, by simp [retryLoop]⟩
  | succ n ih =>
    intro last calls
    rw [retryLoop]
    simp only [rollbackAttempt]
    cases hp : patch calls.length with
    | none => exact ⟨1, by simp, by simp⟩
    | some e =>
      simp only
      split
      · obtain ⟨k, _, hk⟩ := ih (some e) (calls ++ [Call.patchPodSpec container prevVersion])
        refine ⟨k + 1, by simp, ?_⟩
        rw [hk, List.replicate_succ]
        simp
      · exact ⟨1, by simp, by simp⟩

/-- The extraction of the version is defined on an image reference that holds
a `:`. -/
theorem version_of_colon (img : String) (h : ':' ∈ img.data) : ∃ v, version img = some v := by
  have hs := (splitAfterFirst_isSome ':' img.data).mpr h
  unfold version SplitAfterN
  cases hsp : splitAfterFirst ':' img.data with
  | none => rw [hsp] at hs; simp at hs
  | some pr => exact ⟨_, rfl⟩

/-- C6: let `Do`, with rollback checking on, continue with the check-rollback
state of `container` (it does so only for a pod spec that holds the configured
container, wherever it stands among the others), let the images of the pod
spec contain `:`, the rollback-after window have elapsed and ProgressHealth
be false. Then `container` is a container of the pod spec named
`cv.Spec.Container.Name`, and the check-rollback state calls PatchPodSpec on
it with the version parsed from its image as read before the patch, and makes
no other patch call; when that patch succeeds the state continues with
exactly `next`, without error. -/
theorem rollback_patches_named_container (sd : SimpleDeployer) (deployEnv pollEnv : DeployEnv)
    (d : Int) (container : Container)
    (hcheck : sd.checkRollback = true)
    (himages : ∀ c ∈ sd.target.podSpec.containers, ':' ∈ c.image.data)
    (hDo : (sd.Do deployEnv).1 = .ok (.single (sd.checkRollbackState container sd.next)))
    (hd : sd.target.rollbackAfter = some d)
    (helapsed : pollEnv.startTime + d ≤ pollEnv.now)
    (hunhealthy : pollEnv.progressHealth = false) :
    container ∈ sd.target.podSpec.containers ∧
      container.name = sd.cv.spec.container.name ∧
      ∃ prevVersion, version container.image = some prevVersion ∧
        Call.patchPodSpec container prevVersion
          ∈ (runCheckRollbackState sd container sd.next pollEnv).2 ∧
        (∀ call ∈ (runCheckRollbackState sd container sd.next pollEnv).2,
          call = Call.progressHealth ∨ call = Call.patchPodSpec container prevVersion) ∧
        ((RetryOnConflict DefaultRetrySteps
            (rollbackAttempt container prevVersion pollEnv.patch) []).1 = none →
          (runCheckRollbackState sd container sd.next pollEnv).1 = .ok (.single sd.next)) ∧
        (pollEnv.patch 0 = none →
          runCheckRollbackState sd container sd.next pollEnv
            = (.ok (.single sd.next),
                [Call.progressHealth, Call.patchPodSpec container prevVersion])) := by
  obtain ⟨c, hst, hmem, hname⟩ := Do_hands_over_named sd deployEnv _ hcheck hDo
  have hc : c = container := by
    unfold SimpleDeployer.checkRollbackState at hst
    injection hst with _ _ _ _ _ h6 _
    exact h6.symm
  subst hc
  obtain ⟨prevVersion, hv⟩ := version_of_colon c.image (himages c hmem)
  have hn : ¬ pollEnv.now < pollEnv.startTime + d := not_lt.mpr helapsed
  obtain ⟨k, hk, hcalls⟩ := rollback_retry_calls c prevVersion pollEnv.patch
    DefaultRetrySteps none []
  have hkpos : 0 < k := hk (by decide)
  have hrun : (runCheckRollbackState sd c sd.next pollEnv).2
      = Call.progressHealth :: List.replicate k (Call.patchPodSpec c prevVersion) := by
    have hc2 : (RetryOnConflict DefaultRetrySteps
        (rollbackAttempt c prevVersion pollEnv.patch) []).2
        = List.replicate k (Call.patchPodSpec c prevVersion) := by
      unfold RetryOnConflict
      simpa using hcalls
    simp only [runCheckRollbackState, hd, hv, if_neg hn, hunhealthy]
    rcases hr : RetryOnConflict DefaultRetrySteps
        (rollbackAttempt c prevVersion pollEnv.patch) [] with ⟨e, calls⟩
    rw [hr] at hc2
    simp only at hc2
    subst hc2
    cases e <;> simp
  refine ⟨hmem, hname, prevVersion, hv, ?_, ?_, ?_, ?_⟩
  · rw [hrun]
    refine List.mem_cons_of_mem _ ?_
    exact List.mem_replicate.mpr ⟨by omega, rfl⟩
  · intro call hcall
    rw [hrun] at hcall
    rcases List.mem_cons.mp hcall with h | h
    · exact Or.inl h
    · exact Or.inr (List.eq_of_mem_replicate h)
  · intro hretry
    simp only [runCheckRollbackState, hd, hv, if_neg hn, hunhealthy]
    rcases hr : RetryOnConflict DefaultRetrySteps
        (rollbackAttempt c prevVersion pollEnv.patch) [] with ⟨e, calls⟩
    rw [hr] at hretry
    simp only at hretry
    subst hretry
    simp
  · intro hfirst
    have hr : RetryOnConflict DefaultRetrySteps
        (rollbackAttempt c prevVersion pollEnv.patch) []
        = (none, [Call.patchPodSpec c prevVersion]) := by
      rw [RetryOnConflict, DefaultRetrySteps,
        retryLoop_first_ok _ _ _ _ (by simpa [rollbackAttempt] using hfirst)]
      simp [rollbackAttempt]
    simp only [runCheckRollbackState, hd, hv, if_neg hn, hunhealthy, hr]
    simp

/-- The witness of C6: the configured container `app` (image `repo/app:v1`)
stands before a sidecar; `Do` patches it to `v2` and continues with its
check-rollback state, which on an unhealthy target 31s into a 30s window
patches `app` back to `v1` and continues with `next`. -/
theorem rollback_patches_named_container_witness :
    runCheckRollbackState ⟨sampleCV, "v2", sampleWorkload, true, .nil⟩ ⟨"app", "repo/app:v1"⟩
        .nil (sampleDeployEnv false (31 * Second))
      = (.ok (.single .nil),
          [Call.progressHealth, Call.patchPodSpec ⟨"app", "repo/app:v1"⟩ "v1"]) := by
  obtain ⟨_, _, prevVersion, hv, _, _, _, hfirst⟩ :=
    rollback_patches_named_container ⟨sampleCV, "v2", sampleWorkload, true, .nil⟩
      (sampleDeployEnv false 0) (sampleDeployEnv false (31 * Second)) (30 * Second)
      ⟨"app", "repo/app:v1"⟩ rfl (by decide) (by decide) rfl (by decide) rfl
  have hpv : prevVersion = "v1" := by
    have h : version "repo/app:v1" = some "v1" := by decide
    rw [h] at hv
    exact (Option.some.inj hv).symm
  subst hpv
  exact hfirst rfl

end Cvmanager
